import Mathlib

/-!
Verification development for the DTWH_V2 staging loader
(`src/services/loaderStaging`).  The Python source is shallowly embedded:
JSON payloads become an inductive `JValue`, database tables become Lean
lists of row structures, `try/except` blocks become `Except`-valued
"attempt" functions plus a catching wrapper, and `cursor.execute` failures
are injected through explicit `raiseErr` flags.  Each definition mirrors
one function of the source and keeps its name (namespaced by its Python
class where the repository reuses a name).
-/

namespace DTWH

/-- Shallow embedding of a parsed JSON value (the payloads handled by the
loader).  Scalar identifiers produced by the crawler are strings; object
fields keep parsed values. -/
inductive JValue where
  | jnull
  | jbool (b : Bool)
  | jnum (n : Int)
  | jstr (s : String)
  | jobj (fields : List (String × JValue))
  | jarr (elems : List JValue)

/-- A Python dict holding JSON data (one crawler item). -/
abbrev JObj := List (String × JValue)

/-- Python `d.get(key, default)` on a JSON object: the stored value when the
key is present, the default otherwise. -/
def jget (o : JObj) (k : String) (d : JValue) : JValue :=
  (List.lookup k o).getD d

/-- Python truthiness of a JSON value (`if not x`): `None`, `False`, `0`,
`""`, `{}` and `[]` are falsy, everything else truthy. -/
def jtruthy : JValue → Bool
  | .jnull => false
  | .jbool b => b
  | .jnum n => !(n == 0)
  | .jstr s => !(s == "")
  | .jobj f => !f.isEmpty
  | .jarr e => !e.isEmpty

/-- Python `str(x)` for the values reaching the extractors.  `str` of a
container is abbreviated (only its non-emptiness, i.e. truthiness, is ever
observed by the code under verification). -/
def pyStrOfJ : JValue → String
  | .jnull => "None"
  | .jbool b => if b then "True" else "False"
  | .jnum n => toString n
  | .jstr s => s
  | .jobj _ => "<dict>"
  | .jarr _ => "<list>"

/-- Digit-sequence parser backing the model of Python `int(str)`: `none`
unless the characters are one or more decimal digits. -/
def parseDigits : List Char → Option Nat → Option Nat
  | [], acc => acc
  | c :: cs, acc =>
    if c.isDigit then parseDigits cs (some ((acc.getD 0) * 10 + (c.toNat - 48)))
    else none

/-- Python `int(s)` on a string: surrounding whitespace is ignored, an
optional sign precedes one or more digits; anything else raises
(`none`).  (Python's digit-group underscores are not modelled; no input of
the repository uses them.) -/
def pyStrToInt? (s : String) : Option Int :=
  let cs := ((s.toList.dropWhile Char.isWhitespace).reverse.dropWhile
    Char.isWhitespace).reverse
  match cs with
  | '-' :: rest => (parseDigits rest none).map (fun n => -(n : Int))
  | '+' :: rest => (parseDigits rest none).map (fun n => (n : Int))
  | _ => (parseDigits cs none).map (fun n => (n : Int))

/-- Python `int(x)`: `some` on an int, bool, or integer-looking string
(whitespace stripped), `none` when `int` would raise `ValueError` or
`TypeError`. -/
def pyIntOfJ : JValue → Option Int
  | .jnum n => some n
  | .jbool b => some (if b then 1 else 0)
  | .jstr s => pyStrToInt? s
  | _ => none

-- ===========================================================================
-- transformer.py — TikTokTransformer
-- ===========================================================================

/-- Author candidate extracted by `TikTokTransformer.extract_author`.
Non-identifier fields keep whatever JSON value the item carried. -/
structure AuthorCand where
  author_id : String
  author_name : JValue
  avatar : JValue

/-- Video candidate extracted by `TikTokTransformer.extract_video`.
`create_time` is the parsed Unix timestamp (`none` when absent or when
`int(...)` would raise, mirroring the inner `try`). -/
structure VideoCand where
  video_id : String
  author_id : String
  text_content : JValue
  duration : JValue
  create_time : Option Int
  web_video_url : JValue

/-- Interaction candidate extracted by `TikTokTransformer.extract_interaction`. -/
structure InteractionCand where
  video_id : String
  digg_count : Int
  play_count : Int
  share_count : Int
  comment_count : Int
  collect_count : Int
deriving DecidableEq

namespace TikTokTransformer

/-- Embeds `TikTokTransformer.extract_author`: reads `authorMeta` (absent
means `{}`, a non-dict raises and is caught to `None`), stringifies the id,
and drops the candidate when the id is empty. -/
def extract_author (item : JObj) : Option AuthorCand :=
  match jget item "authorMeta" (.jobj []) with
  | .jobj am =>
    let author_id := pyStrOfJ (jget am "id" (.jstr ""))
    if author_id = "" then none
    else some ⟨author_id, jget am "name" (.jstr ""), jget am "avatar" (.jstr "")⟩
  | _ => none

/-- Embeds `TikTokTransformer.extract_video`: reads `authorMeta` and
`videoMeta` (absent means `{}`, a non-dict raises and is caught to `None`),
parses `createTime` best-effort, and requires truthy video and author ids. -/
def extract_video (item : JObj) : Option VideoCand :=
  match jget item "authorMeta" (.jobj []), jget item "videoMeta" (.jobj []) with
  | .jobj am, .jobj vm =>
    let create_time : Option Int :=
      match List.lookup "createTime" item with
      | none => none
      | some v => pyIntOfJ v
    let video_id := pyStrOfJ (jget item "id" (.jstr ""))
    let author_id := pyStrOfJ (jget am "id" (.jstr ""))
    if video_id = "" then none
    else if author_id = "" then none
    else some ⟨video_id, author_id, jget item "text" (.jstr ""),
               jget vm "duration" (.jnum 0), create_time,
               jget item "webVideoUrl" (.jstr "")⟩
  | _, _ => none

/-- Embeds `TikTokTransformer.extract_interaction`: the five counters go
through `int(...)`; if any of them raises, the surrounding `except` returns
`None`, dropping the whole candidate.  An empty video id also drops it. -/
def extract_interaction (item : JObj) : Option InteractionCand :=
  let video_id := pyStrOfJ (jget item "id" (.jstr ""))
  match pyIntOfJ (jget item "diggCount" (.jnum 0)),
        pyIntOfJ (jget item "playCount" (.jnum 0)),
        pyIntOfJ (jget item "shareCount" (.jnum 0)),
        pyIntOfJ (jget item "commentCount" (.jnum 0)),
        pyIntOfJ (jget item "collectCount" (.jnum 0)) with
  | some d, some p, some sh, some c, some col =>
    if video_id = "" then none
    else some ⟨video_id, d, p, sh, c, col⟩
  | _, _, _, _, _ => none

end TikTokTransformer

/-- Result of `TikTokTransformer.transform_batch`. -/
structure TransformResult where
  authors : List AuthorCand
  videos : List VideoCand
  interactions : List InteractionCand

namespace TikTokTransformer

/-- Loop body of `transform_batch`, threading the `author_ids_seen` and
`video_ids_seen` sets (modelled as lists used only through membership). -/
def transformGo : List JObj → List String → List String → TransformResult
  | [], _, _ => ⟨[], [], []⟩
  | item :: rest, seenA, seenV =>
    let addA : Option AuthorCand :=
      match extract_author item with
      | some a => if a.author_id ∈ seenA then none else some a
      | none => none
    let addV : Option VideoCand :=
      match extract_video item with
      | some v => if v.video_id ∈ seenV then none else some v
      | none => none
    let addI : Option InteractionCand := extract_interaction item
    let seenA1 := match addA with
      | some a => a.author_id :: seenA
      | none => seenA
    let seenV1 := match addV with
      | some v => v.video_id :: seenV
      | none => seenV
    let r := transformGo rest seenA1 seenV1
    ⟨addA.toList ++ r.authors, addV.toList ++ r.videos, addI.toList ++ r.interactions⟩

/-- Embeds `TikTokTransformer.transform_batch`: one pass over the items,
deduplicating authors and videos by natural key (first seen wins) and
collecting every interaction candidate. -/
def transform_batch (json_data : List JObj) : TransformResult :=
  transformGo json_data [] []

end TikTokTransformer

/-- Spec-side first-seen deduplication by key, used to state what
`transform_batch` computes for authors and videos: keep an element only if
its key was not seen before, remembering keys of kept elements. -/
def dedupFirstBy {α : Type} (key : α → String) (seen : List String) : List α → List α
  | [] => []
  | x :: xs =>
    if key x ∈ seen then dedupFirstBy key seen xs
    else x :: dedupFirstBy key (key x :: seen) xs

-- ===========================================================================
-- loader.py — safe_int
-- ===========================================================================

/-- Embeds `loader.safe_int`: `None` or an unparseable value yields the
default, otherwise the parsed integer. -/
def safe_int (value : Option JValue) (dflt : Int) : Int :=
  match value with
  | none => dflt
  | some v => (pyIntOfJ v).getD dflt

-- ===========================================================================
-- Date dimension and date-key resolution
-- ===========================================================================

/-- A calendar date (the `full_date` column of `DateDim` and Python
`date.today()`). -/
structure CalDate where
  year : Nat
  month : Nat
  day : Nat
deriving DecidableEq

/-- Strict calendar order on dates. -/
def CalDate.before (a b : CalDate) : Bool :=
  if a.year ≠ b.year then Nat.blt a.year b.year
  else if a.month ≠ b.month then Nat.blt a.month b.month
  else Nat.blt a.day b.day

/-- One row of the `DateDim` table (only the columns the loader reads:
`date_sk` and `full_date`). -/
structure DateDimRow where
  date_sk : Int
  full_date : CalDate
deriving DecidableEq

/-- Integer `YYYYMMDD` for a date — `int(today_str.replace('-', ''))` in
`get_date_sk_for_today`'s fallback. -/
def yyyymmdd (d : CalDate) : Int :=
  ((d.year * 10000 + d.month * 100 + d.day : Nat) : Int)

/-- Looks up the `full_date` of a surrogate key in `DateDim` (the
`LEFT JOIN DateDim d ON a.extract_date_sk = d.date_sk` of the SCD2
queries); `none` models a join miss (SQL `NULL`). -/
def lookup_full_date (dateDim : List DateDimRow) (sk : Int) : Option CalDate :=
  (dateDim.find? (fun r => decide (r.date_sk = sk))).map (·.full_date)

namespace TikTokETLProcessor

/-- Embeds `TikTokETLProcessor.get_date_sk_for_today`
(`etl_processor.py` and `etl_processor_scd2.py`, identical bodies): the
`date_sk` of today's `DateDim` row when present, otherwise the fabricated
surrogate `int(YYYYMMDD)`. -/
def get_date_sk_for_today (today : CalDate) (dateDim : List DateDimRow) : Int :=
  match dateDim.find? (fun r => decide (r.full_date = today)) with
  | some r => r.date_sk
  | none => yyyymmdd today

end TikTokETLProcessor

namespace BatchFetcher

/-- Embeds `BatchFetcher.get_today_date_sk` (`db.py`): the query result when
it succeeds and finds a row, `None` on a missing row, and `None` again when
the query raises `Error` (the `except` branch).  `dbFail` injects the
database error. -/
def get_today_date_sk (dbFail : Bool) (today : CalDate)
    (dateDim : List DateDimRow) : Option Int :=
  if dbFail then none
  else (dateDim.find? (fun r => decide (r.full_date = today))).map (·.date_sk)

end BatchFetcher

-- ===========================================================================
-- etl_processor_scd2.py — SCD2 author upsert
-- ===========================================================================

/-- One row of the staging `Authors` table as used by
`etl_processor_scd2.py` (integer ids, no `is_current` column read). -/
structure AuthorRow where
  authorID : Int
  Name : String
  avatar : String
  extract_date_sk : Int
deriving DecidableEq

/-- Author candidate extracted by
`TikTokETLProcessor.extract_author_data` (the fields consumed by
`upsert_author_scd2`; the extracted `extract_date_sk` is passed separately
and unused by the upsert). -/
structure AuthorData where
  authorID : Int
  Name : String
  avatar : String
deriving DecidableEq

/-- The `SELECT ... WHERE a.authorID = %s ORDER BY a.extract_date_sk DESC
LIMIT 1` of `upsert_author_scd2`: the row of the key with the greatest
`extract_date_sk` (ties cannot arise under the composite primary key; the
model keeps the first maximal row). -/
def latestAuthorRow (aid : Int) : List AuthorRow → Option AuthorRow
  | [] => none
  | r :: rs =>
    let rest := latestAuthorRow aid rs
    if r.authorID = aid then
      match rest with
      | none => some r
      | some m => if m.extract_date_sk > r.extract_date_sk then some m else some r
    else rest

namespace TikTokETLProcessor

/-- Embeds `TikTokETLProcessor.upsert_author_scd2`
(`etl_processor_scd2.py`): fetch the latest row of the key joined to
`DateDim`; with a resolvable date equal to today, update that row in place
when a tracked attribute differs; with a different resolvable date, insert
a new row keyed by today's resolved `date_sk` when a tracked attribute
differs; otherwise report `NO_CHANGE`; with no row (or an unresolvable
date, a join miss) insert a first row. -/
def upsert_author_scd2 (today : CalDate) (dateDim : List DateDimRow)
    (a : AuthorData) (s : List AuthorRow) : List AuthorRow × String :=
  let today_sk := get_date_sk_for_today today dateDim
  match latestAuthorRow a.authorID s with
  | some existing =>
    match lookup_full_date dateDim existing.extract_date_sk with
    | some existing_date =>
      if existing_date = today then
        if existing.Name ≠ a.Name ∨ existing.avatar ≠ a.avatar then
          (s.map (fun r =>
            if r.authorID = a.authorID ∧ r.extract_date_sk = existing.extract_date_sk
            then { r with Name := a.Name, avatar := a.avatar } else r), "UPDATE")
        else (s, "NO_CHANGE")
      else
        if existing.Name ≠ a.Name ∨ existing.avatar ≠ a.avatar then
          (s ++ [⟨a.authorID, a.Name, a.avatar, today_sk⟩], "INSERT")
        else (s, "NO_CHANGE")
    | none => (s ++ [⟨a.authorID, a.Name, a.avatar, today_sk⟩], "INSERT")
  | none => (s ++ [⟨a.authorID, a.Name, a.avatar, today_sk⟩], "INSERT")

end TikTokETLProcessor

-- ===========================================================================
-- etl_processor.py — interaction upsert (overwrite flavour with DATE_UPDATE)
-- ===========================================================================

/-- One row of the staging `VideoInteractions` table as used by
`etl_processor.py`. -/
structure InteractionRow where
  videoID : Int
  DiggCount : Int
  PlayCount : Int
  ShareCount : Int
  CommentCount : Int
  CollectCount : Int
  interaction_date_sk : Int
deriving DecidableEq

/-- Interaction candidate consumed by `TikTokETLProcessor.upsert_interaction`
(`etl_processor.py`); the extracted `interaction_date_sk` is ignored by the
upsert, which always resolves today's key itself. -/
structure InteractionData where
  videoID : Int
  DiggCount : Int
  PlayCount : Int
  ShareCount : Int
  CommentCount : Int
  CollectCount : Int
deriving DecidableEq

/-- The five-counter comparison of `upsert_interaction`. -/
def countsEqual (r : InteractionRow) (d : InteractionData) : Prop :=
  r.DiggCount = d.DiggCount ∧ r.PlayCount = d.PlayCount ∧
  r.ShareCount = d.ShareCount ∧ r.CommentCount = d.CommentCount ∧
  r.CollectCount = d.CollectCount

instance (r : InteractionRow) (d : InteractionData) : Decidable (countsEqual r d) := by
  unfold countsEqual; infer_instance

namespace TikTokETLProcessor

/-- Embeds `TikTokETLProcessor.upsert_interaction` (`etl_processor.py`):
fetch the existing row of the video; when any of the five counters differs,
write the new counters together with today's resolved date key; when all
five match but the stored date key differs from today's, write just the
date key and report `DATE_UPDATE`; when everything matches report
`NO_CHANGE`; with no row insert one keyed by today's date. -/
def upsert_interaction (today : CalDate) (dateDim : List DateDimRow)
    (d : InteractionData) (s : List InteractionRow) : List InteractionRow × String :=
  let today_sk := get_date_sk_for_today today dateDim
  match s.find? (fun r => decide (r.videoID = d.videoID)) with
  | some existing =>
    if countsEqual existing d then
      if existing.interaction_date_sk ≠ today_sk then
        (s.map (fun r =>
          if r.videoID = d.videoID
          then { r with interaction_date_sk := today_sk } else r), "DATE_UPDATE")
      else (s, "NO_CHANGE")
    else
      (s.map (fun r =>
        if r.videoID = d.videoID
        then { r with DiggCount := d.DiggCount, PlayCount := d.PlayCount,
                      ShareCount := d.ShareCount, CommentCount := d.CommentCount,
                      CollectCount := d.CollectCount,
                      interaction_date_sk := today_sk } else r), "UPDATE")
  | none =>
    (s ++ [⟨d.videoID, d.DiggCount, d.PlayCount, d.ShareCount,
            d.CommentCount, d.CollectCount, today_sk⟩], "INSERT")

end TikTokETLProcessor

-- ===========================================================================
-- db.py — injected database failures
-- ===========================================================================

/-- A `mysql.connector.Error` raised by `cursor.execute`/`commit`; the only
exception type the `except Error` clauses of `db.py` catch. -/
inductive DbError where
  | sqlError
deriving DecidableEq

-- ===========================================================================
-- db.py — UpsertManager
-- ===========================================================================

/-- One row of the `Authors` table as written by `db.py`'s queries
(string ids, `is_current` column). -/
structure AuthorRowDb where
  author_id : String
  author_name : String
  avatar : String
  extract_date_sk : Int
  is_current : Bool
deriving DecidableEq

/-- The `existing_data` comparison snapshot passed to
`UpsertManager.upsert_author` (`None` or an empty dict collapse to
`none`, both falsy in the `if existing_data and ...` guard). -/
structure ExistingAuthorData where
  author_name : String
  avatar : String
deriving DecidableEq

/-- The `existing_data` snapshot passed to
`UpsertManager.upsert_interaction`. -/
structure ExistingInteractionData where
  digg_count : Int
  play_count : Int
  share_count : Int
  comment_count : Int
  collect_count : Int
deriving DecidableEq

/-- One row of the `VideoInteractions` table as written by `db.py`'s
queries. -/
structure InteractionRowDb where
  video_id : String
  digg_count : Int
  play_count : Int
  share_count : Int
  comment_count : Int
  collect_count : Int
  interaction_date_sk : Int
  is_current : Bool
deriving DecidableEq

namespace UpsertManager

/-- Body of `UpsertManager.upsert_author` without its `try/except`:
key absent from the cache — run `INSERT_AUTHOR`; key present with a
matching snapshot — no write, `SKIP`; otherwise run `UPDATE_AUTHOR`, whose
statement sets name and avatar only on rows satisfying
`author_id = %s AND extract_date_sk = %s` with the run's `date_sk`.
`raiseErr` injects an `Error` from the write being executed. -/
def upsert_author_attempt (raiseErr : Bool) (author_id author_name avatar : String)
    (date_sk : Int) (existing_authors : List String)
    (existing_data : Option ExistingAuthorData) (s : List AuthorRowDb) :
    Except DbError (List AuthorRowDb × Bool × String) :=
  if author_id ∈ existing_authors then
    match existing_data with
    | some ed =>
      if ed.author_name = author_name ∧ ed.avatar = avatar then
        .ok (s, true, "SKIP")
      else if raiseErr then .error .sqlError
      else .ok (s.map (fun r =>
        if r.author_id = author_id ∧ r.extract_date_sk = date_sk
        then { r with author_name := author_name, avatar := avatar } else r),
        true, "UPDATE")
    | none =>
      if raiseErr then .error .sqlError
      else .ok (s.map (fun r =>
        if r.author_id = author_id ∧ r.extract_date_sk = date_sk
        then { r with author_name := author_name, avatar := avatar } else r),
        true, "UPDATE")
  else
    if raiseErr then .error .sqlError
    else .ok (s ++ [⟨author_id, author_name, avatar, date_sk, true⟩], true, "INSERT")

/-- Embeds `UpsertManager.upsert_author` (`db.py`): the body above with its
`except Error` handler, which rolls the transaction back (the state reverts
to `s`) and returns `(False, "ERROR")`. -/
def upsert_author (raiseErr : Bool) (author_id author_name avatar : String)
    (date_sk : Int) (existing_authors : List String)
    (existing_data : Option ExistingAuthorData) (s : List AuthorRowDb) :
    List AuthorRowDb × Bool × String :=
  match upsert_author_attempt raiseErr author_id author_name avatar date_sk
      existing_authors existing_data s with
  | .ok r => r
  | .error _ => (s, false, "ERROR")

/-- The five-counter comparison of `UpsertManager.upsert_interaction`. -/
def edCountsEqual (ed : ExistingInteractionData)
    (digg play share comment collect : Int) : Prop :=
  ed.digg_count = digg ∧ ed.play_count = play ∧ ed.share_count = share ∧
  ed.comment_count = comment ∧ ed.collect_count = collect

instance (ed : ExistingInteractionData) (digg play share comment collect : Int) :
    Decidable (edCountsEqual ed digg play share comment collect) := by
  unfold edCountsEqual; infer_instance

/-- Body of `UpsertManager.upsert_interaction` without its `try/except`:
key absent from the cache — run `INSERT_INTERACTION`; key present with all
five counters matching the snapshot — no write, `SKIP`; otherwise run
`UPDATE_INTERACTION`, whose statement sets the five counters (not the date
key) on rows satisfying `video_id = %s AND interaction_date_sk = %s` with
the run's `date_sk`. -/
def upsert_interaction_attempt (raiseErr : Bool) (video_id : String)
    (digg play share comment collect : Int) (date_sk : Int)
    (existing_interactions : List String)
    (existing_data : Option ExistingInteractionData) (s : List InteractionRowDb) :
    Except DbError (List InteractionRowDb × Bool × String) :=
  if video_id ∈ existing_interactions then
    match existing_data with
    | some ed =>
      if edCountsEqual ed digg play share comment collect then
        .ok (s, true, "SKIP")
      else if raiseErr then .error .sqlError
      else .ok (s.map (fun r =>
        if r.video_id = video_id ∧ r.interaction_date_sk = date_sk
        then { r with digg_count := digg, play_count := play, share_count := share,
                      comment_count := comment, collect_count := collect } else r),
        true, "UPDATE")
    | none =>
      if raiseErr then .error .sqlError
      else .ok (s.map (fun r =>
        if r.video_id = video_id ∧ r.interaction_date_sk = date_sk
        then { r with digg_count := digg, play_count := play, share_count := share,
                      comment_count := comment, collect_count := collect } else r),
        true, "UPDATE")
  else
    if raiseErr then .error .sqlError
    else .ok (s ++ [⟨video_id, digg, play, share, comment, collect, date_sk, true⟩],
              true, "INSERT")

/-- Embeds `UpsertManager.upsert_interaction` (`db.py`): the body above
with its `except Error` handler (rollback to `s`, `(False, "ERROR")`). -/
def upsert_interaction (raiseErr : Bool) (video_id : String)
    (digg play share comment collect : Int) (date_sk : Int)
    (existing_interactions : List String)
    (existing_data : Option ExistingInteractionData) (s : List InteractionRowDb) :
    List InteractionRowDb × Bool × String :=
  match upsert_interaction_attempt raiseErr video_id digg play share comment collect
      date_sk existing_interactions existing_data s with
  | .ok r => r
  | .error _ => (s, false, "ERROR")

end UpsertManager

/-- Modelled from the spec: no caller of `UpsertManager.upsert_author` is
present under `src/`; §4.3/§4.4 of the spec say a run snapshots the
identity cache from the table at batch start and compares against the
latest known stored snapshot.  This wrapper supplies exactly that: the
cache is the table's keys and `existing_data` is the stored row of the
key. -/
def run_author_db (author_id author_name avatar : String) (date_sk : Int)
    (s : List AuthorRowDb) : List AuthorRowDb × Bool × String :=
  UpsertManager.upsert_author false author_id author_name avatar date_sk
    (s.map (·.author_id))
    ((s.find? (fun r => decide (r.author_id = author_id))).map
      (fun r => ⟨r.author_name, r.avatar⟩))
    s

-- ===========================================================================
-- db.py — BatchFetcher existence queries
-- ===========================================================================

namespace BatchFetcher

/-- Embeds `BatchFetcher.fetch_all_authors` (`db.py`): the queried key set
on success, the empty set when the query raises `Error` (the `except`
branch returns `set()`). -/
def fetch_all_authors (queryResult : Except DbError (List String)) : List String :=
  match queryResult with
  | .ok ids => ids
  | .error _ => []

/-- Embeds `BatchFetcher.fetch_all_videos` (`db.py`). -/
def fetch_all_videos (queryResult : Except DbError (List String)) : List String :=
  match queryResult with
  | .ok ids => ids
  | .error _ => []

/-- Embeds `BatchFetcher.fetch_all_interactions` (`db.py`). -/
def fetch_all_interactions (queryResult : Except DbError (List String)) : List String :=
  match queryResult with
  | .ok ids => ids
  | .error _ => []

/-- Embeds `BatchFetcher.fetch_all` (`db.py`): the three existence queries
run in sequence at batch start. -/
def fetch_all (qa qv qi : Except DbError (List String)) :
    List String × List String × List String :=
  (fetch_all_authors qa, fetch_all_videos qv, fetch_all_interactions qi)

end BatchFetcher

-- ===========================================================================
-- db.py — LoadLogManager
-- ===========================================================================

/-- One row of the `LoadLog` table as inserted by `INSERT_LOAD_LOG`
(timestamps and the derived duration are not modelled; no claim reads
them). -/
structure LoadLogRow where
  batch_id : String
  table_name : String
  record_count : Int
  inserted_count : Int
  updated_count : Int
  skipped_count : Int
  status : String
  source_filename : String
deriving DecidableEq

namespace LoadLogManager

/-- Body of `LoadLogManager.log_load` without its `try/except`: one
`INSERT_LOAD_LOG` execute plus commit, appending one row. -/
def log_load_attempt (raiseErr : Bool) (entry : LoadLogRow)
    (logs : List LoadLogRow) : Except DbError (List LoadLogRow × Bool) :=
  if raiseErr then .error .sqlError
  else .ok (logs ++ [entry], true)

/-- Embeds `LoadLogManager.log_load` (`db.py`): the body above with its
`except Error` handler, which logs, rolls back (the log table reverts to
`logs`) and returns `False` — the exception is swallowed. -/
def log_load (raiseErr : Bool) (entry : LoadLogRow)
    (logs : List LoadLogRow) : List LoadLogRow × Bool :=
  match log_load_attempt raiseErr entry logs with
  | .ok r => r
  | .error _ => (logs, false)

end LoadLogManager

-- ===========================================================================
-- etl_processor.py — the per-record loop of process_raw_json_data
-- ===========================================================================

/-- The record loop of `TikTokETLProcessor.process_raw_json_data`
(`etl_processor.py`): each record's processing `step` either commits a new
state or raises; the `except` clause rolls back (processing of the next
record resumes from the state before the failed record), counts the error
and continues.  Returns the final state and the error count. -/
def process_records {ρ σ : Type} (step : ρ → σ → Except DbError σ) :
    List ρ → σ → σ × Nat
  | [], s => (s, 0)
  | r :: rs, s =>
    match step r s with
    | .ok s1 => process_records step rs s1
    | .error _ =>
      let rest := process_records step rs s
      (rest.1, rest.2 + 1)

-- ===========================================================================
-- etl_processor.py / etl_processor_scd2.py — interaction extraction
-- ===========================================================================

namespace TikTokETLProcessor

/-- Embeds `TikTokETLProcessor.extract_interaction_data`
(`etl_processor.py`; `etl_processor_scd2.py`'s body is the same on these
fields): a falsy or absent `id` yields `None`; every counter and the id go
through `int(...)`, and any raise is caught by the `except`, dropping the
whole candidate.  The extracted `interaction_date_sk` equals the passed-in
key and is ignored by the upsert, so it is not carried here. -/
def extract_interaction_data (json_content : JObj) : Option InteractionData :=
  match List.lookup "id" json_content with
  | none => none
  | some idv =>
    if jtruthy idv = false then none
    else
      match pyIntOfJ (jget json_content "id" (.jnum 0)),
            pyIntOfJ (jget json_content "diggCount" (.jnum 0)),
            pyIntOfJ (jget json_content "playCount" (.jnum 0)),
            pyIntOfJ (jget json_content "shareCount" (.jnum 0)),
            pyIntOfJ (jget json_content "commentCount" (.jnum 0)),
            pyIntOfJ (jget json_content "collectCount" (.jnum 0)) with
      | some vid, some d, some p, some sh, some c, some col =>
        some ⟨vid, d, p, sh, c, col⟩
      | _, _, _, _, _, _ => none

end TikTokETLProcessor

-- ===========================================================================
-- db.py — RawJsonManager
-- ===========================================================================

/-- One row of the `RawJson` table.  `content` holds the parsed JSON value
(the code always `json.dumps`es on write and `json.loads`es on read, so
the string round-trip is the identity for the well-formed contents the
manager itself writes). -/
structure RawRow where
  raw_json_id : Nat
  content : JValue
  load_status : String
  filename : String

namespace RawJsonManager

/-- The raw `item['id']` read with presence check (`if 'id' in item`) used
by `fetch_existing_video_ids` and `delete_old_raw_json`.  Crawler ids are
scalar strings; an item that is not a dict or whose id is not a string
carries no modelled id. -/
def rawItemId : JValue → Option String
  | .jobj f =>
    match List.lookup "id" f with
    | some (.jstr s) => some s
    | _ => none
  | _ => none

/-- The truthy `item.get('id')` used by `insert_raw_json`'s partition: the
raw id when present and non-empty. -/
def itemGetId (it : JValue) : Option String :=
  match rawItemId it with
  | some s => if s = "" then none else some s
  | none => none

/-- All video ids covered by one stored `content` value: one per item of a
JSON array, or the single object's id. -/
def jsonVideoIds : JValue → List String
  | .jarr items => items.filterMap rawItemId
  | .jobj f => (rawItemId (.jobj f)).toList
  | _ => []

/-- Embeds `RawJsonManager.fetch_existing_video_ids` (`db.py`): every id
occurring in the content of a `SUCCESS` raw record (the set is modelled as
a list used only through membership). -/
def fetch_existing_video_ids (store : List RawRow) : List String :=
  (store.filter (fun r => decide (r.load_status = "SUCCESS"))).flatMap
    (fun r => jsonVideoIds r.content)

/-- Embeds `RawJsonManager.delete_old_raw_json` (`db.py`): with an empty
deletion set, return immediately; otherwise delete every `SUCCESS` record
whose content contains at least one id of the deletion set. -/
def delete_old_raw_json (video_ids_to_delete : List String)
    (store : List RawRow) : List RawRow :=
  if video_ids_to_delete.isEmpty then store
  else store.filter (fun r =>
    !(decide (r.load_status = "SUCCESS") &&
      (jsonVideoIds r.content).any (fun i => decide (i ∈ video_ids_to_delete))))

/-- The partition step of `insert_raw_json`: items with a truthy id absent
from the existing set are NEW (kept in order); truthy ids already present
are collected for deletion.  A single object is treated the same way; any
other JSON shape yields nothing. -/
def partitionItems (json_data : JValue) (existing : List String) :
    List JValue × List String :=
  match json_data with
  | .jarr items =>
    (items.filter (fun it =>
        match itemGetId it with
        | some vid => decide (vid ∉ existing)
        | none => false),
     (items.filterMap itemGetId).filter (fun vid => decide (vid ∈ existing)))
  | .jobj f =>
    match itemGetId (.jobj f) with
    | some vid => if vid ∈ existing then ([], [vid]) else ([.jobj f], [])
    | none => ([], [])
  | _ => ([], [])

/-- Embeds the success path of `RawJsonManager.insert_raw_json` (`db.py`):
load the ids already present among `SUCCESS` raw records, partition the
incoming items into NEW and SEEN, insert the NEW subset as one batched row
(`json.dumps(new_items)`), then delete the records covering SEEN ids.  A
`FAILED` status stores the content verbatim with no filtering.  `nextId`
stands for the auto-increment `raw_json_id`. -/
def insert_raw_json (status : String) (content : JValue) (filename : String)
    (nextId : Nat) (store : List RawRow) : List RawRow × Bool :=
  if status = "FAILED" then
    (store ++ [⟨nextId, content, "FAILED", filename⟩], true)
  else
    let existing := fetch_existing_video_ids store
    let parts := partitionItems content existing
    let new_items := parts.1
    let old_video_ids := parts.2
    if new_items.isEmpty then
      (if old_video_ids.isEmpty then store
       else delete_old_raw_json old_video_ids store, true)
    else
      let store1 := store ++ [⟨nextId, .jarr new_items, status, filename⟩]
      (if old_video_ids.isEmpty then store1
       else delete_old_raw_json old_video_ids store1, true)

end RawJsonManager

-- ===========================================================================
-- Theorems
-- ===========================================================================

/-- C5.  The claim says the date-key resolver fails with `DateNotFoundError`
for a date outside the pre-loaded calendar range and never returns a
fabricated surrogate key.  Counterexample: with an empty `DateDim`,
`get_date_sk_for_today` for 2025-10-12 returns the fabricated integer key
20251012, and the run continues — the SCD2 author upsert inserts a row
tagged with exactly that key.  `BatchFetcher.get_today_date_sk` returns
`None` rather than raising. -/
theorem C5_counterexample :
    TikTokETLProcessor.get_date_sk_for_today ⟨2025, 10, 12⟩ [] = 20251012 ∧
    BatchFetcher.get_today_date_sk false ⟨2025, 10, 12⟩ [] = none ∧
    TikTokETLProcessor.upsert_author_scd2 ⟨2025, 10, 12⟩ []
      ⟨1, "alice", "av"⟩ [] = ([⟨1, "alice", "av", 20251012⟩], "INSERT") := by
  refine ⟨rfl, rfl, rfl⟩

/-- C5 (amended).  For every date absent from the pre-loaded calendar
range, `get_date_sk_for_today` returns the fabricated surrogate
`int(YYYYMMDD)` instead of raising (no `DateNotFoundError` exists in the
code), `BatchFetcher.get_today_date_sk` returns `None` whether the row is
missing or the query fails, and the enclosing run continues: the SCD2
author upsert proceeds and tags its inserted row with the fabricated
key. -/
theorem C5_resolver_fabricates (today : CalDate) (dateDim : List DateDimRow)
    (h : dateDim.find? (fun r => decide (r.full_date = today)) = none) :
    TikTokETLProcessor.get_date_sk_for_today today dateDim = yyyymmdd today ∧
    (∀ dbFail, BatchFetcher.get_today_date_sk dbFail today dateDim = none) ∧
    (∀ a : AuthorData, TikTokETLProcessor.upsert_author_scd2 today dateDim a [] =
      ([⟨a.authorID, a.Name, a.avatar, yyyymmdd today⟩], "INSERT")) := by
  refine ⟨?_, ?_, ?_⟩
  · unfold TikTokETLProcessor.get_date_sk_for_today
    rw [h]
  · intro dbFail
    unfold BatchFetcher.get_today_date_sk
    cases dbFail <;> simp [h]
  · intro a
    unfold TikTokETLProcessor.upsert_author_scd2 latestAuthorRow
    unfold TikTokETLProcessor.get_date_sk_for_today
    rw [h]
    simp

/-- C5 witness: the amended theorem applied to 2025-10-12 against a
calendar holding only 2025-10-11. -/
theorem C5_resolver_fabricates_witness :
    TikTokETLProcessor.get_date_sk_for_today ⟨2025, 10, 12⟩
      [⟨100, ⟨2025, 10, 11⟩⟩] = yyyymmdd ⟨2025, 10, 12⟩ ∧
    (∀ dbFail, BatchFetcher.get_today_date_sk dbFail ⟨2025, 10, 12⟩
      [⟨100, ⟨2025, 10, 11⟩⟩] = none) ∧
    (∀ a : AuthorData, TikTokETLProcessor.upsert_author_scd2 ⟨2025, 10, 12⟩
      [⟨100, ⟨2025, 10, 11⟩⟩] a [] =
      ([⟨a.authorID, a.Name, a.avatar, yyyymmdd ⟨2025, 10, 12⟩⟩], "INSERT")) :=
  C5_resolver_fabricates ⟨2025, 10, 12⟩ [⟨100, ⟨2025, 10, 11⟩⟩] (by decide)

/-- C10.  When a batch-start existence query raises a database error, the
fetch functions return the empty set instead of propagating; an upsert run
against that empty cache then takes the `INSERT` path for every candidate,
even one whose key actually has a row in the table. -/
theorem C10_fetch_error_empty_cache (e : DbError)
    (author_id author_name avatar : String) (date_sk : Int)
    (existing_data : Option ExistingAuthorData) (s : List AuthorRowDb)
    (hmem : author_id ∈ s.map (·.author_id)) :
    BatchFetcher.fetch_all_authors (.error e) = [] ∧
    BatchFetcher.fetch_all_videos (.error e) = [] ∧
    BatchFetcher.fetch_all_interactions (.error e) = [] ∧
    BatchFetcher.fetch_all (.error e) (.error e) (.error e) = ([], [], []) ∧
    UpsertManager.upsert_author false author_id author_name avatar date_sk
      (BatchFetcher.fetch_all_authors (.error e)) existing_data s =
      (s ++ [⟨author_id, author_name, avatar, date_sk, true⟩], true, "INSERT") := by
  refine ⟨rfl, rfl, rfl, rfl, ?_⟩
  unfold UpsertManager.upsert_author UpsertManager.upsert_author_attempt
  simp [BatchFetcher.fetch_all_authors]

/-- C10 witness: a failed author query yields the empty cache and a
duplicate-key candidate is nevertheless INSERTed. -/
theorem C10_fetch_error_empty_cache_witness :
    BatchFetcher.fetch_all_authors (.error .sqlError) = [] ∧
    BatchFetcher.fetch_all_videos (.error .sqlError) = [] ∧
    BatchFetcher.fetch_all_interactions (.error .sqlError) = [] ∧
    BatchFetcher.fetch_all (.error .sqlError) (.error .sqlError) (.error .sqlError) =
      ([], [], []) ∧
    UpsertManager.upsert_author false "a1" "alice" "av" 200
      (BatchFetcher.fetch_all_authors (.error .sqlError)) none
      [⟨"a1", "old", "av", 100, true⟩] =
      ([⟨"a1", "old", "av", 100, true⟩, ⟨"a1", "alice", "av", 200, true⟩],
       true, "INSERT") :=
  C10_fetch_error_empty_cache .sqlError "a1" "alice" "av" 200 none
    [⟨"a1", "old", "av", 100, true⟩] (by decide)

/-- C9.  Every invocation of `LoadLogManager.log_load` returns normally:
on success it appends exactly one row and returns `True`; when the insert
raises, the `except Error` branch swallows the exception, rolls back (the
log is unchanged) and returns `False` — failure is reported only through
the return value. -/
theorem C9_log_load_swallows (raiseErr : Bool) (entry : LoadLogRow)
    (logs : List LoadLogRow) :
    LoadLogManager.log_load raiseErr entry logs =
      (if raiseErr then (logs, false) else (logs ++ [entry], true)) ∧
    (∀ e, LoadLogManager.log_load_attempt raiseErr entry logs = .error e →
      LoadLogManager.log_load raiseErr entry logs = (logs, false)) ∧
    (LoadLogManager.log_load false entry logs).1.length = logs.length + 1 ∧
    (LoadLogManager.log_load true entry logs).1 = logs := by
  cases raiseErr <;>
    simp [LoadLogManager.log_load, LoadLogManager.log_load_attempt]

/-- C9 witness: one concrete log entry, appended on success and dropped
with a normal return on an injected failure. -/
theorem C9_log_load_swallows_witness :
    LoadLogManager.log_load true
      ⟨"LOAD_1", "Authors", 3, 1, 1, 1, "SUCCESS", "f.json"⟩ [] = ([], false) ∧
    LoadLogManager.log_load false
      ⟨"LOAD_1", "Authors", 3, 1, 1, 1, "SUCCESS", "f.json"⟩ [] =
      ([⟨"LOAD_1", "Authors", 3, 1, 1, 1, "SUCCESS", "f.json"⟩], true) := by
  refine ⟨?_, ?_⟩
  · simpa using (C9_log_load_swallows true
      ⟨"LOAD_1", "Authors", 3, 1, 1, 1, "SUCCESS", "f.json"⟩ []).1
  · simpa using (C9_log_load_swallows false
      ⟨"LOAD_1", "Authors", 3, 1, 1, 1, "SUCCESS", "f.json"⟩ []).1

/-- C8.  A record whose persistence raises is caught rather than
propagated: the upsert's `except Error` branch rolls the transaction back
(the table reverts to its state before the record) and reports `ERROR`;
and the record loop of `process_raw_json_data` counts the failure and
continues processing the remaining records from the unchanged state. -/
theorem C8_per_record_isolation :
    (∀ (raiseErr : Bool) (aid an av : String) (dsk : Int) (cache : List String)
       (ed : Option ExistingAuthorData) (s : List AuthorRowDb) (e : DbError),
       UpsertManager.upsert_author_attempt raiseErr aid an av dsk cache ed s =
         .error e →
       UpsertManager.upsert_author raiseErr aid an av dsk cache ed s =
         (s, false, "ERROR")) ∧
    (∀ {ρ σ : Type} (step : ρ → σ → Except DbError σ) (r : ρ) (rs : List ρ)
       (s : σ) (e : DbError),
       step r s = .error e →
       process_records step (r :: rs) s =
         ((process_records step rs s).1, (process_records step rs s).2 + 1)) := by
  constructor
  · intro raiseErr aid an av dsk cache ed s e h
    unfold UpsertManager.upsert_author
    rw [h]
  · intro ρ σ step r rs s e h
    conv_lhs => rw [process_records, h]

/-- C8 witness: an injected failure on the INSERT path yields a rollback
and `ERROR`, and a failing first record of a two-record batch is counted
while the second record is still processed. -/
theorem C8_per_record_isolation_witness :
    UpsertManager.upsert_author true "a1" "alice" "av" 1 [] none [] =
      ([], false, "ERROR") ∧
    process_records
      (fun (b : Bool) (st : List Nat) =>
        if b then Except.error DbError.sqlError else Except.ok (0 :: st))
      [true, false] [] = ([0], 1) := by
  constructor
  · exact C8_per_record_isolation.1 true "a1" "alice" "av" 1 [] none [] .sqlError rfl
  · have h := C8_per_record_isolation.2
      (fun (b : Bool) (st : List Nat) =>
        if b then Except.error DbError.sqlError else Except.ok (0 :: st))
      true [false] [] .sqlError rfl
    rw [h]
    rfl

/-- C1.  The claim says that for an already-present key the interaction
upsert returns SKIP and performs no write when all five counters match, and
on any difference performs an UPDATE writing the new counters and advancing
the row's date key.  Counterexample, both halves: (1) with all five
counters equal but a stale stored date key, `TikTokETLProcessor.
upsert_interaction` does write — it sets the date key and returns
`DATE_UPDATE`, not a write-free SKIP; (2) with a differing counter,
`UpsertManager.upsert_interaction` reports `UPDATE` but its statement
matches only rows whose date key already equals the run's, so here it
neither writes the counters nor advances the stored date key 100. -/
theorem C1_counterexample :
    TikTokETLProcessor.upsert_interaction ⟨2025, 10, 12⟩ [⟨200, ⟨2025, 10, 12⟩⟩]
      ⟨7, 1, 2, 3, 4, 5⟩ [⟨7, 1, 2, 3, 4, 5, 100⟩] =
      ([⟨7, 1, 2, 3, 4, 5, 200⟩], "DATE_UPDATE") ∧
    UpsertManager.upsert_interaction false "v1" 9 2 3 4 5 200 ["v1"]
      (some ⟨1, 2, 3, 4, 5⟩) [⟨"v1", 1, 2, 3, 4, 5, 100, true⟩] =
      ([⟨"v1", 1, 2, 3, 4, 5, 100, true⟩], true, "UPDATE") := by
  refine ⟨by decide, by decide⟩

/-- C1 (amended).  For a key already present: `UpsertManager.
upsert_interaction` returns SKIP with no write exactly when the snapshot's
five counters all match, and on any difference reports UPDATE — but its
statement only touches rows whose stored date key already equals the run's
date key and never advances any date key.  `TikTokETLProcessor.
upsert_interaction` on five matching counters leaves the row alone
(`NO_CHANGE`) only when the stored date key equals today's; otherwise it
writes just the date key (`DATE_UPDATE`); and on any differing counter it
writes the new counters and advances the date key to today's
(`UPDATE`). -/
theorem C1_interaction_upsert (video_id : String)
    (digg play share comment collect : Int) (date_sk : Int)
    (cache : List String) (s : List InteractionRowDb)
    (today : CalDate) (dateDim : List DateDimRow) (d : InteractionData)
    (t : List InteractionRow) :
    (∀ ed, video_id ∈ cache →
      UpsertManager.edCountsEqual ed digg play share comment collect →
      UpsertManager.upsert_interaction false video_id digg play share comment
        collect date_sk cache (some ed) s = (s, true, "SKIP")) ∧
    (∀ ed, video_id ∈ cache →
      ¬ UpsertManager.edCountsEqual ed digg play share comment collect →
      UpsertManager.upsert_interaction false video_id digg play share comment
        collect date_sk cache (some ed) s =
        (s.map (fun r =>
          if r.video_id = video_id ∧ r.interaction_date_sk = date_sk
          then { r with digg_count := digg, play_count := play,
                        share_count := share, comment_count := comment,
                        collect_count := collect } else r), true, "UPDATE") ∧
      (UpsertManager.upsert_interaction false video_id digg play share comment
        collect date_sk cache (some ed) s).1.map (·.interaction_date_sk) =
        s.map (·.interaction_date_sk)) ∧
    (∀ ex, t.find? (fun r => decide (r.videoID = d.videoID)) = some ex →
      countsEqual ex d →
      ex.interaction_date_sk = TikTokETLProcessor.get_date_sk_for_today today dateDim →
      TikTokETLProcessor.upsert_interaction today dateDim d t = (t, "NO_CHANGE")) ∧
    (∀ ex, t.find? (fun r => decide (r.videoID = d.videoID)) = some ex →
      countsEqual ex d →
      ex.interaction_date_sk ≠ TikTokETLProcessor.get_date_sk_for_today today dateDim →
      TikTokETLProcessor.upsert_interaction today dateDim d t =
        (t.map (fun r =>
          if r.videoID = d.videoID
          then { r with interaction_date_sk :=
                   TikTokETLProcessor.get_date_sk_for_today today dateDim }
          else r), "DATE_UPDATE")) ∧
    (∀ ex, t.find? (fun r => decide (r.videoID = d.videoID)) = some ex →
      ¬ countsEqual ex d →
      TikTokETLProcessor.upsert_interaction today dateDim d t =
        (t.map (fun r =>
          if r.videoID = d.videoID
          then { r with DiggCount := d.DiggCount, PlayCount := d.PlayCount,
                        ShareCount := d.ShareCount, CommentCount := d.CommentCount,
                        CollectCount := d.CollectCount,
                        interaction_date_sk :=
                          TikTokETLProcessor.get_date_sk_for_today today dateDim }
          else r), "UPDATE")) := by
  refine ⟨?_, ?_, ?_, ?_, ?_⟩
  · intro ed hmem heq
    unfold UpsertManager.upsert_interaction UpsertManager.upsert_interaction_attempt
    simp [hmem, heq]
  · intro ed hmem hne
    have heq : UpsertManager.upsert_interaction false video_id digg play share
        comment collect date_sk cache (some ed) s =
        (s.map (fun r =>
          if r.video_id = video_id ∧ r.interaction_date_sk = date_sk
          then { r with digg_count := digg, play_count := play,
                        share_count := share, comment_count := comment,
                        collect_count := collect } else r), true, "UPDATE") := by
      unfold UpsertManager.upsert_interaction UpsertManager.upsert_interaction_attempt
      simp [hmem, hne]
    refine ⟨heq, ?_⟩
    rw [heq]
    dsimp only
    rw [List.map_map]
    refine List.map_congr_left (fun r _ => ?_)
    by_cases h : r.video_id = video_id ∧ r.interaction_date_sk = date_sk <;>
      simp [Function.comp, h]
  · intro ex hfind heq hdate
    unfold TikTokETLProcessor.upsert_interaction
    rw [hfind]
    simp [heq, hdate]
  · intro ex hfind heq hdate
    unfold TikTokETLProcessor.upsert_interaction
    rw [hfind]
    simp [heq, hdate]
  · intro ex hfind hne
    unfold TikTokETLProcessor.upsert_interaction
    rw [hfind]
    simp [hne]

/-- C1 witness: concrete instances of all five behaviours. -/
theorem C1_interaction_upsert_witness :
    UpsertManager.upsert_interaction false "v1" 1 2 3 4 5 200 ["v1"]
      (some ⟨1, 2, 3, 4, 5⟩) [⟨"v1", 1, 2, 3, 4, 5, 100, true⟩] =
      ([⟨"v1", 1, 2, 3, 4, 5, 100, true⟩], true, "SKIP") ∧
    (UpsertManager.upsert_interaction false "v1" 9 2 3 4 5 100 ["v1"]
      (some ⟨1, 2, 3, 4, 5⟩) [⟨"v1", 1, 2, 3, 4, 5, 100, true⟩]).1.map
        (·.interaction_date_sk) = [100] ∧
    TikTokETLProcessor.upsert_interaction ⟨2025, 10, 12⟩ [⟨200, ⟨2025, 10, 12⟩⟩]
      ⟨7, 1, 2, 3, 4, 5⟩ [⟨7, 1, 2, 3, 4, 5, 200⟩] =
      ([⟨7, 1, 2, 3, 4, 5, 200⟩], "NO_CHANGE") ∧
    TikTokETLProcessor.upsert_interaction ⟨2025, 10, 12⟩ [⟨200, ⟨2025, 10, 12⟩⟩]
      ⟨7, 9, 2, 3, 4, 5⟩ [⟨7, 1, 2, 3, 4, 5, 100⟩] =
      ([⟨7, 9, 2, 3, 4, 5, 200⟩], "UPDATE") := by
  have h := C1_interaction_upsert "v1" 1 2 3 4 5 200 ["v1"]
    [⟨"v1", 1, 2, 3, 4, 5, 100, true⟩] ⟨2025, 10, 12⟩ [⟨200, ⟨2025, 10, 12⟩⟩]
    ⟨7, 1, 2, 3, 4, 5⟩ [⟨7, 1, 2, 3, 4, 5, 200⟩]
  have h2 := C1_interaction_upsert "v1" 9 2 3 4 5 100 ["v1"]
    [⟨"v1", 1, 2, 3, 4, 5, 100, true⟩] ⟨2025, 10, 12⟩ [⟨200, ⟨2025, 10, 12⟩⟩]
    ⟨7, 9, 2, 3, 4, 5⟩ [⟨7, 1, 2, 3, 4, 5, 100⟩]
  refine ⟨h.1 ⟨1, 2, 3, 4, 5⟩ (by decide) (by decide), ?_, ?_, ?_⟩
  · exact (h2.2.1 ⟨1, 2, 3, 4, 5⟩ (by decide) (by decide)).2
  · exact h.2.2.1 ⟨7, 1, 2, 3, 4, 5, 200⟩ (by decide) (by decide) (by decide)
  · have h3 := h2.2.2.2.2 ⟨7, 1, 2, 3, 4, 5, 100⟩ (by decide) (by decide)
    rw [h3]
    decide

/-- A truthy `item.get('id')` agrees with the raw presence-based read. -/
theorem rawItemId_of_itemGetId {it : JValue} {v : String}
    (h : RawJsonManager.itemGetId it = some v) :
    RawJsonManager.rawItemId it = some v := by
  unfold RawJsonManager.itemGetId at h
  cases hr : RawJsonManager.rawItemId it with
  | none => rw [hr] at h; cases h
  | some s =>
    rw [hr] at h
    by_cases hs : s = ""
    · simp [hs] at h
    · simp only [if_neg hs, Option.some.injEq] at h
      rw [h]

/-- Two complementary filters partition a list's length. -/
theorem length_filter_partition {α : Type} (p q : α → Bool) (l : List α)
    (h : ∀ x ∈ l, q x = !p x) :
    (l.filter p).length + (l.filter q).length = l.length := by
  induction l with
  | nil => rfl
  | cons x xs ih =>
    have hx := h x (by simp)
    have ih2 := ih (fun y hy => h y (by simp [hy]))
    cases hp : p x <;> rw [hp] at hx <;>
      simp [List.filter_cons, hp, hx] <;> omega

/-- C4.  The claim says raw ingest deletes only pre-existing raw rows that
exclusively cover already-seen keys.  Counterexample: the stored row 1
covers keys v1 and v2; an incoming batch [v1, v3] marks only v1 as seen,
yet `insert_raw_json` deletes row 1 entirely (losing the only raw coverage
of v2): the final store holds just the freshly inserted row with v3. -/
theorem C4_counterexample :
    RawJsonManager.insert_raw_json "SUCCESS"
      (.jarr [.jobj [("id", .jstr "v1")], .jobj [("id", .jstr "v3")]])
      "f1.json" 2
      [⟨1, .jarr [.jobj [("id", .jstr "v1")], .jobj [("id", .jstr "v2")]],
        "SUCCESS", "f0.json"⟩] =
      ([⟨2, .jarr [.jobj [("id", .jstr "v3")]], "SUCCESS", "f1.json"⟩], true) ∧
    "v2" ∈ RawJsonManager.jsonVideoIds
      (.jarr [.jobj [("id", .jstr "v1")], .jobj [("id", .jstr "v2")]]) ∧
    "v2" ∉ ["v1"] := by
  refine ⟨rfl, by simp [RawJsonManager.jsonVideoIds, RawJsonManager.rawItemId], by simp⟩

/-- C4 (amended).  For an incoming batch of N keyed items of which K keys
already exist among SUCCESS raw records: the new subset of N−K items is
persisted as one batched row, then rows are deleted — the final store is
the delete applied after the append, so the insert precedes the delete and
the fresh row survives it; a pre-existing SUCCESS row survives exactly
when it covers none of the seen keys (so any row covering at least one
seen key is removed, even one that also covers other keys); non-SUCCESS
rows are untouched. -/
theorem C4_raw_ingest (store : List RawRow) (items : List JValue)
    (filename : String) (nextId : Nat)
    (existing oldIds : List String) (newItems : List JValue)
    (hex : existing = RawJsonManager.fetch_existing_video_ids store)
    (hni : newItems = items.filter (fun it =>
      match RawJsonManager.itemGetId it with
      | some vid => decide (vid ∉ existing)
      | none => false))
    (hoi : oldIds = (items.filterMap RawJsonManager.itemGetId).filter
      (fun vid => decide (vid ∈ existing)))
    (hk : ∀ it ∈ items, (RawJsonManager.itemGetId it).isSome)
    (hnew : newItems ≠ []) :
    RawJsonManager.insert_raw_json "SUCCESS" (.jarr items) filename nextId store =
      (RawJsonManager.delete_old_raw_json oldIds
        (store ++ [⟨nextId, .jarr newItems, "SUCCESS", filename⟩]), true) ∧
    newItems.length + (items.filter (fun it =>
      match RawJsonManager.itemGetId it with
      | some vid => decide (vid ∈ existing)
      | none => false)).length = items.length ∧
    (∀ r ∈ store, r.load_status = "SUCCESS" →
      (r ∈ (RawJsonManager.insert_raw_json "SUCCESS" (.jarr items) filename
              nextId store).1 ↔
       ∀ i ∈ RawJsonManager.jsonVideoIds r.content, i ∉ oldIds)) ∧
    (∀ r ∈ store, r.load_status ≠ "SUCCESS" →
      r ∈ (RawJsonManager.insert_raw_json "SUCCESS" (.jarr items) filename
             nextId store).1) ∧
    (⟨nextId, .jarr newItems, "SUCCESS", filename⟩ : RawRow) ∈
      (RawJsonManager.insert_raw_json "SUCCESS" (.jarr items) filename
         nextId store).1 := by
  have hparts : RawJsonManager.partitionItems (.jarr items) existing =
      (newItems, oldIds) := by
    unfold RawJsonManager.partitionItems
    rw [hni, hoi]
  have hne : newItems.isEmpty = false := by
    cases newItems with
    | nil => exact absurd rfl hnew
    | cons x xs => rfl
  have hmain : RawJsonManager.insert_raw_json "SUCCESS" (.jarr items) filename
      nextId store =
      (RawJsonManager.delete_old_raw_json oldIds
        (store ++ [⟨nextId, .jarr newItems, "SUCCESS", filename⟩]), true) := by
    simp only [RawJsonManager.insert_raw_json, ← hex, hparts, hne]
    simp only [Bool.false_eq_true, if_false, reduceIte]
    cases ho : oldIds with
    | nil => simp [RawJsonManager.delete_old_raw_json]
    | cons x xs => simp [RawJsonManager.delete_old_raw_json]
  have hsub : ∀ i ∈ oldIds, i ∈ existing := by
    intro i hi
    rw [hoi] at hi
    simpa using (List.mem_filter.mp hi).2
  refine ⟨hmain, ?_, ?_, ?_, ?_⟩
  · rw [hni]
    refine length_filter_partition _ _ items (fun it hit => ?_)
    rcases Option.isSome_iff_exists.mp (hk it hit) with ⟨vid, hvid⟩
    simp [hvid, decide_not]
  · intro r hr hstat
    rw [hmain]
    cases ho : oldIds with
    | nil =>
      simp [RawJsonManager.delete_old_raw_json, List.mem_append]
      exact Or.inl hr
    | cons x xs =>
      rw [← ho]
      have hone : oldIds.isEmpty = false := by rw [ho]; rfl
      simp only [RawJsonManager.delete_old_raw_json, hone, Bool.false_eq_true,
        if_false, reduceIte]
      rw [List.mem_filter]
      have hmm : r ∈ store ++ [(⟨nextId, .jarr newItems, "SUCCESS", filename⟩ : RawRow)] :=
        List.mem_append_left _ hr
      simp [hmm, hstat, List.any_eq_false]
  · intro r hr hstat
    rw [hmain]
    cases ho : oldIds with
    | nil =>
      simp [RawJsonManager.delete_old_raw_json, List.mem_append]
      exact Or.inl hr
    | cons x xs =>
      rw [← ho]
      have hone : oldIds.isEmpty = false := by rw [ho]; rfl
      simp only [RawJsonManager.delete_old_raw_json, hone, Bool.false_eq_true,
        if_false, reduceIte]
      rw [List.mem_filter]
      refine ⟨List.mem_append_left _ hr, ?_⟩
      simp [hstat]
  · have hfresh : ∀ i ∈ RawJsonManager.jsonVideoIds (.jarr newItems), i ∉ oldIds := by
      intro i hi hiold
      simp only [RawJsonManager.jsonVideoIds] at hi
      rcases List.mem_filterMap.mp hi with ⟨it, hit, hraw⟩
      rw [hni] at hit
      rcases List.mem_filter.mp hit with ⟨_, hpred⟩
      cases hg : RawJsonManager.itemGetId it with
      | none => rw [hg] at hpred; cases hpred
      | some vid =>
        rw [hg] at hpred
        have hvne : vid ∉ existing := by simpa using hpred
        have hrid : RawJsonManager.rawItemId it = some vid := rawItemId_of_itemGetId hg
        rw [hrid] at hraw
        cases hraw
        exact hvne (hsub _ hiold)
    rw [hmain]
    cases ho : oldIds with
    | nil =>
      simp [RawJsonManager.delete_old_raw_json, List.mem_append]
    | cons x xs =>
      rw [← ho]
      have hone : oldIds.isEmpty = false := by rw [ho]; rfl
      simp only [RawJsonManager.delete_old_raw_json, hone, Bool.false_eq_true,
        if_false, reduceIte]
      rw [List.mem_filter]
      refine ⟨List.mem_append_right _ (by simp), ?_⟩
      simp [List.any_eq_false]
      exact fun i hi => hfresh i hi

/-- C4 witness: a two-item batch against a store with one seen key. -/
theorem C4_raw_ingest_witness :
    RawJsonManager.insert_raw_json "SUCCESS"
      (.jarr [.jobj [("id", .jstr "v1")], .jobj [("id", .jstr "v3")]])
      "f1.json" 2
      [⟨1, .jarr [.jobj [("id", .jstr "v1")]], "SUCCESS", "f0.json"⟩] =
      (RawJsonManager.delete_old_raw_json ["v1"]
        ([⟨1, .jarr [.jobj [("id", .jstr "v1")]], "SUCCESS", "f0.json"⟩] ++
         [⟨2, .jarr [.jobj [("id", .jstr "v3")]], "SUCCESS", "f1.json"⟩]), true) ∧
    (⟨2, .jarr [.jobj [("id", .jstr "v3")]], "SUCCESS", "f1.json"⟩ : RawRow) ∈
      (RawJsonManager.insert_raw_json "SUCCESS"
        (.jarr [.jobj [("id", .jstr "v1")], .jobj [("id", .jstr "v3")]])
        "f1.json" 2
        [⟨1, .jarr [.jobj [("id", .jstr "v1")]], "SUCCESS", "f0.json"⟩]).1 := by
  have h := C4_raw_ingest
    [⟨1, .jarr [.jobj [("id", .jstr "v1")]], "SUCCESS", "f0.json"⟩]
    [.jobj [("id", .jstr "v1")], .jobj [("id", .jstr "v3")]]
    "f1.json" 2 ["v1"] ["v1"] [.jobj [("id", .jstr "v3")]]
    rfl rfl rfl
    (by intro it hit
        simp only [List.mem_cons, List.not_mem_nil, or_false] at hit
        rcases hit with rfl | rfl <;> rfl)
    (List.cons_ne_nil _ _)
  exact ⟨h.1, h.2.2.2.2⟩

/-- The author stream of the transform loop is the first-seen
deduplication of the per-item author extraction. -/
theorem transformGo_authors (items : List JObj) : ∀ seenA seenV,
    (TikTokTransformer.transformGo items seenA seenV).authors =
      dedupFirstBy (·.author_id) seenA
        (items.filterMap TikTokTransformer.extract_author) := by
  induction items with
  | nil => intro seenA seenV; rfl
  | cons item rest ih =>
    intro seenA seenV
    simp only [TikTokTransformer.transformGo, List.filterMap_cons]
    cases ha : TikTokTransformer.extract_author item with
    | none => simpa using ih seenA _
    | some a =>
      by_cases hmem : a.author_id ∈ seenA
      · simp only [hmem, if_true, dedupFirstBy, Option.toList_none, List.nil_append]
        simpa [hmem] using ih seenA _
      · simp only [hmem, if_false, dedupFirstBy, Option.toList_some,
          List.singleton_append]
        simpa [hmem] using congrArg (a :: ·) (ih (a.author_id :: seenA) _)

/-- The video stream of the transform loop is the first-seen deduplication
of the per-item video extraction. -/
theorem transformGo_videos (items : List JObj) : ∀ seenA seenV,
    (TikTokTransformer.transformGo items seenA seenV).videos =
      dedupFirstBy (·.video_id) seenV
        (items.filterMap TikTokTransformer.extract_video) := by
  induction items with
  | nil => intro seenA seenV; rfl
  | cons item rest ih =>
    intro seenA seenV
    simp only [TikTokTransformer.transformGo, List.filterMap_cons]
    cases hv : TikTokTransformer.extract_video item with
    | none => simpa using ih _ seenV
    | some v =>
      by_cases hmem : v.video_id ∈ seenV
      · simp only [hmem, if_true, dedupFirstBy, Option.toList_none, List.nil_append]
        simpa [hmem] using ih _ seenV
      · simp only [hmem, if_false, dedupFirstBy, Option.toList_some,
          List.singleton_append]
        simpa [hmem] using congrArg (v :: ·) (ih _ (v.video_id :: seenV))

/-- The interaction stream of the transform loop is the plain per-item
extraction: no deduplication happens. -/
theorem transformGo_interactions (items : List JObj) : ∀ seenA seenV,
    (TikTokTransformer.transformGo items seenA seenV).interactions =
      items.filterMap TikTokTransformer.extract_interaction := by
  induction items with
  | nil => intro seenA seenV; rfl
  | cons item rest ih =>
    intro seenA seenV
    simp only [TikTokTransformer.transformGo, List.filterMap_cons]
    cases hi : TikTokTransformer.extract_interaction item with
    | none => simpa using ih _ _
    | some c => simpa using congrArg (c :: ·) (ih _ _)

/-- First-seen deduplication produces pairwise-distinct keys, none of them
previously seen. -/
theorem dedupFirstBy_nodup {α : Type} (key : α → String) (l : List α) :
    ∀ seen, ((dedupFirstBy key seen l).map key).Nodup ∧
      ∀ k ∈ (dedupFirstBy key seen l).map key, k ∉ seen := by
  induction l with
  | nil => intro seen; exact ⟨List.nodup_nil, by simp [dedupFirstBy]⟩
  | cons x xs ih =>
    intro seen
    by_cases h : key x ∈ seen
    · simpa [dedupFirstBy, h] using ih seen
    · rcases ih (key x :: seen) with ⟨hnd, hall⟩
      refine ⟨?_, ?_⟩
      · simp only [dedupFirstBy, h, if_false, List.map_cons, List.nodup_cons]
        exact ⟨fun hmem => by simpa using (hall _ hmem), hnd⟩
      · intro k hk
        simp only [dedupFirstBy, h, if_false, List.map_cons, List.mem_cons] at hk
        rcases hk with rfl | hk
        · exact h
        · exact fun hks => (hall k hk) (List.mem_cons_of_mem _ hks)

/-- C6.  The claim says duplicate natural keys collapse to a single
candidate for each of the three entity types.  Counterexample: two items
sharing video id v1 yield one author and one video candidate but TWO
interaction candidates — `transform_batch` never deduplicates
interactions. -/
theorem C6_counterexample :
    ((TikTokTransformer.transform_batch
      [[("id", .jstr "v1"), ("diggCount", .jnum 1),
        ("authorMeta", .jobj [("id", .jstr "a1")])],
       [("id", .jstr "v1"), ("diggCount", .jnum 2),
        ("authorMeta", .jobj [("id", .jstr "a1")])]]).interactions.map
      (·.video_id)) = ["v1", "v1"] ∧
    ¬ ((TikTokTransformer.transform_batch
      [[("id", .jstr "v1"), ("diggCount", .jnum 1),
        ("authorMeta", .jobj [("id", .jstr "a1")])],
       [("id", .jstr "v1"), ("diggCount", .jnum 2),
        ("authorMeta", .jobj [("id", .jstr "a1")])]]).interactions.map
      (·.video_id)).Nodup ∧
    ((TikTokTransformer.transform_batch
      [[("id", .jstr "v1"), ("diggCount", .jnum 1),
        ("authorMeta", .jobj [("id", .jstr "a1")])],
       [("id", .jstr "v1"), ("diggCount", .jnum 2),
        ("authorMeta", .jobj [("id", .jstr "a1")])]]).authors.map
      (·.author_id)) = ["a1"] := by
  refine ⟨rfl, by decide, rfl⟩

/-- C6 (amended).  Within one batch, author and video candidates collapse
to a single candidate per natural key with the first-seen values winning
(the result is exactly the first-seen deduplication of the extraction
stream, and its key lists are duplicate-free); interaction candidates are
NOT deduplicated: every extracted interaction candidate is kept, so a key
occurring in several items contributes several interaction candidates. -/
theorem C6_transform_dedup (items : List JObj) :
    (TikTokTransformer.transform_batch items).authors =
      dedupFirstBy (·.author_id) []
        (items.filterMap TikTokTransformer.extract_author) ∧
    (TikTokTransformer.transform_batch items).videos =
      dedupFirstBy (·.video_id) []
        (items.filterMap TikTokTransformer.extract_video) ∧
    (TikTokTransformer.transform_batch items).interactions =
      items.filterMap TikTokTransformer.extract_interaction ∧
    ((TikTokTransformer.transform_batch items).authors.map (·.author_id)).Nodup ∧
    ((TikTokTransformer.transform_batch items).videos.map (·.video_id)).Nodup := by
  refine ⟨transformGo_authors items [] [], transformGo_videos items [] [],
    transformGo_interactions items [] [], ?_, ?_⟩
  · rw [show (TikTokTransformer.transform_batch items).authors =
        dedupFirstBy (·.author_id) []
          (items.filterMap TikTokTransformer.extract_author) from
      transformGo_authors items [] []]
    exact (dedupFirstBy_nodup _ _ []).1
  · rw [show (TikTokTransformer.transform_batch items).videos =
        dedupFirstBy (·.video_id) []
          (items.filterMap TikTokTransformer.extract_video) from
      transformGo_videos items [] []]
    exact (dedupFirstBy_nodup _ _ []).1

/-- C7.  The claim says a numeric field that cannot be parsed yields the
default 0 without dropping the candidate (a malformed `diggCount` still
yields an interaction candidate with that counter 0 and the others
parsed).  Counterexample: with `diggCount = "abc"` (and a perfectly good
`playCount`), both `TikTokTransformer.extract_interaction` and
`TikTokETLProcessor.extract_interaction_data` return `None` — the whole
interaction candidate is dropped, not zero-defaulted. -/
theorem C7_counterexample :
    TikTokTransformer.extract_interaction
      [("id", .jstr "v1"), ("diggCount", .jstr "abc"), ("playCount", .jnum 5)] =
      none ∧
    TikTokETLProcessor.extract_interaction_data
      [("id", .jnum 7), ("diggCount", .jstr "abc"), ("playCount", .jnum 5)] =
      none ∧
    pyIntOfJ (.jstr "abc") = none := by
  refine ⟨by decide, by decide, by decide⟩

/-- C7 (amended).  The extraction functions are total and an absent nested
object behaves as an empty mapping: `extract_author` without `authorMeta`
returns `None` rather than raising, and it reads nothing but `authorMeta`,
so a malformed numeric elsewhere in the item never affects the author
candidate.  `loader.safe_int` implements best-effort parsing with default:
`None` and unparseable values yield the default, parseable ones their
value.  But in `TikTokTransformer.extract_interaction` an unparseable
`diggCount` drops the whole interaction candidate (`None`), it does not
default that counter to 0. -/
theorem C7_extraction_totality :
    (∀ d : Int, safe_int none d = d) ∧
    (∀ (v : JValue) (d : Int), pyIntOfJ v = none → safe_int (some v) d = d) ∧
    (∀ (v : JValue) (d n : Int), pyIntOfJ v = some n → safe_int (some v) d = n) ∧
    (∀ item : JObj, List.lookup "authorMeta" item = none →
      TikTokTransformer.extract_author item = none) ∧
    (∀ item : JObj, TikTokTransformer.extract_author item =
      TikTokTransformer.extract_author
        [("authorMeta", jget item "authorMeta" (.jobj []))]) ∧
    (∀ (item : JObj) (v : JValue), List.lookup "diggCount" item = some v →
      pyIntOfJ v = none → TikTokTransformer.extract_interaction item = none) := by
  refine ⟨fun d => rfl, ?_, ?_, ?_, ?_, ?_⟩
  · intro v d h
    simp [safe_int, h]
  · intro v d n h
    simp [safe_int, h]
  · intro item h
    simp [TikTokTransformer.extract_author, jget, h, pyStrOfJ]
  · intro item
    simp [TikTokTransformer.extract_author, jget, List.lookup]
  · intro item v hlk hnone
    unfold TikTokTransformer.extract_interaction
    rw [show jget item "diggCount" (.jnum 0) = v by simp [jget, hlk]]
    rw [hnone]

/-- C7 witness: `safe_int` on the malformed string "abc" and on the
parseable "12"; author extraction with `authorMeta` absent and in the
presence of a malformed counter; interaction extraction dropped by the
malformed counter. -/
theorem C7_extraction_totality_witness :
    safe_int none 0 = 0 ∧
    safe_int (some (.jstr "abc")) 0 = 0 ∧
    safe_int (some (.jstr "12")) 0 = 12 ∧
    TikTokTransformer.extract_author [("id", .jstr "v1")] = none ∧
    TikTokTransformer.extract_author
      [("authorMeta", .jobj [("id", .jstr "a1")]), ("diggCount", .jstr "abc")] =
      TikTokTransformer.extract_author
        [("authorMeta", jget [("authorMeta", .jobj [("id", .jstr "a1")]),
            ("diggCount", .jstr "abc")] "authorMeta" (.jobj []))] ∧
    TikTokTransformer.extract_interaction
      [("id", .jstr "v1"), ("diggCount", .jstr "abc")] = none := by
  exact ⟨C7_extraction_totality.1 0,
    C7_extraction_totality.2.1 (.jstr "abc") 0 (by decide),
    C7_extraction_totality.2.2.1 (.jstr "12") 0 12 (by decide),
    C7_extraction_totality.2.2.2.1 [("id", .jstr "v1")] rfl,
    C7_extraction_totality.2.2.2.2.1 _,
    C7_extraction_totality.2.2.2.2.2 _ (.jstr "abc") rfl (by decide)⟩

/-- Strictly earlier calendar dates are distinct. -/
theorem CalDate.before_ne {x y : CalDate} (h : CalDate.before x y = true) : x ≠ y := by
  intro hxy
  subst hxy
  unfold CalDate.before at h
  simp only [ne_eq, not_true_eq_false, if_false, ite_self] at h
  exact absurd h (by simp [Nat.blt])

/-- C2.  Append-new-version discipline of `upsert_author_scd2`, for a key
that already has rows and a candidate whose tracked attributes differ from
the latest row's: when the latest row's date key resolves to today's
calendar date, that row is mutated in place (same row count — no second
row for the day); when it resolves to a strictly earlier date, a new row
tagged with today's resolved date key is appended and all prior rows are
left unchanged. -/
theorem C2_scd2_versioning (today : CalDate) (dateDim : List DateDimRow)
    (a : AuthorData) (s : List AuthorRow) (L : AuthorRow) (dL : CalDate)
    (hL : latestAuthorRow a.authorID s = some L)
    (hdL : lookup_full_date dateDim L.extract_date_sk = some dL)
    (hchg : L.Name ≠ a.Name ∨ L.avatar ≠ a.avatar) :
    (dL = today →
      TikTokETLProcessor.upsert_author_scd2 today dateDim a s =
        (s.map (fun r =>
          if r.authorID = a.authorID ∧ r.extract_date_sk = L.extract_date_sk
          then { r with Name := a.Name, avatar := a.avatar } else r), "UPDATE") ∧
      (TikTokETLProcessor.upsert_author_scd2 today dateDim a s).1.length =
        s.length) ∧
    (CalDate.before dL today = true →
      TikTokETLProcessor.upsert_author_scd2 today dateDim a s =
        (s ++ [⟨a.authorID, a.Name, a.avatar,
          TikTokETLProcessor.get_date_sk_for_today today dateDim⟩], "INSERT")) := by
  constructor
  · intro ht
    have hmain : TikTokETLProcessor.upsert_author_scd2 today dateDim a s =
        (s.map (fun r =>
          if r.authorID = a.authorID ∧ r.extract_date_sk = L.extract_date_sk
          then { r with Name := a.Name, avatar := a.avatar } else r), "UPDATE") := by
      simp only [TikTokETLProcessor.upsert_author_scd2, hL, hdL]
      rw [if_pos ht, if_pos hchg]
    refine ⟨hmain, ?_⟩
    rw [hmain]
    exact List.length_map _ _
  · intro hbef
    simp only [TikTokETLProcessor.upsert_author_scd2, hL, hdL]
    rw [if_neg (CalDate.before_ne hbef), if_pos hchg]

/-- C2 witness: the in-place branch on a same-day row and the append
branch on a yesterday row, with the calendar holding both days. -/
theorem C2_scd2_versioning_witness :
    TikTokETLProcessor.upsert_author_scd2 ⟨2025, 10, 12⟩
      [⟨100, ⟨2025, 10, 11⟩⟩, ⟨200, ⟨2025, 10, 12⟩⟩] ⟨1, "new", "av"⟩
      [⟨1, "old", "av", 200⟩] = ([⟨1, "new", "av", 200⟩], "UPDATE") ∧
    TikTokETLProcessor.upsert_author_scd2 ⟨2025, 10, 12⟩
      [⟨100, ⟨2025, 10, 11⟩⟩, ⟨200, ⟨2025, 10, 12⟩⟩] ⟨1, "new", "av"⟩
      [⟨1, "old", "av", 100⟩] =
      ([⟨1, "old", "av", 100⟩, ⟨1, "new", "av", 200⟩], "INSERT") := by
  constructor
  · have h := (C2_scd2_versioning ⟨2025, 10, 12⟩
      [⟨100, ⟨2025, 10, 11⟩⟩, ⟨200, ⟨2025, 10, 12⟩⟩] ⟨1, "new", "av"⟩
      [⟨1, "old", "av", 200⟩] ⟨1, "old", "av", 200⟩ ⟨2025, 10, 12⟩
      (by decide) (by decide) (by decide)).1 rfl
    rw [h.1]
    decide
  · have h := (C2_scd2_versioning ⟨2025, 10, 12⟩
      [⟨100, ⟨2025, 10, 11⟩⟩, ⟨200, ⟨2025, 10, 12⟩⟩] ⟨1, "new", "av"⟩
      [⟨1, "old", "av", 100⟩] ⟨1, "old", "av", 100⟩ ⟨2025, 10, 11⟩
      (by decide) (by decide) (by decide)).2 (by decide)
    rw [h]
    decide

/-- A latest row is a row of the key. -/
theorem latestAuthorRow_mem {aid : Int} : ∀ {s : List AuthorRow} {L : AuthorRow},
    latestAuthorRow aid s = some L → L ∈ s ∧ L.authorID = aid := by
  intro s
  induction s with
  | nil => intro L hL; cases hL
  | cons r rs ih =>
    intro L hL
    simp only [latestAuthorRow] at hL
    by_cases hr : r.authorID = aid
    · rw [if_pos hr] at hL
      cases hrest : latestAuthorRow aid rs with
      | none =>
        rw [hrest] at hL
        dsimp only at hL
        simp only [Option.some.injEq] at hL
        exact ⟨by rw [← hL]; exact List.mem_cons_self r rs, hL ▸ hr⟩
      | some m =>
        rw [hrest] at hL
        dsimp only at hL
        by_cases hgt : m.extract_date_sk > r.extract_date_sk
        · rw [if_pos hgt] at hL
          simp only [Option.some.injEq] at hL
          rcases ih hrest with ⟨hm, ha⟩
          exact ⟨hL ▸ List.mem_cons_of_mem r hm, hL ▸ ha⟩
        · rw [if_neg hgt] at hL
          simp only [Option.some.injEq] at hL
          exact ⟨by rw [← hL]; exact List.mem_cons_self r rs, hL ▸ hr⟩
    · rw [if_neg hr] at hL
      rcases ih hL with ⟨hm, ha⟩
      exact ⟨List.mem_cons_of_mem r hm, ha⟩

/-- If no latest row exists, no row carries the key. -/
theorem latestAuthorRow_none {aid : Int} {s : List AuthorRow}
    (h : latestAuthorRow aid s = none) : ∀ x ∈ s, x.authorID ≠ aid := by
  induction s with
  | nil => intro x hx; cases hx
  | cons r rs ih =>
    simp only [latestAuthorRow] at h
    by_cases hr : r.authorID = aid
    · rw [if_pos hr] at h
      cases hrest : latestAuthorRow aid rs with
      | none => rw [hrest] at h; dsimp only at h; cases h
      | some m =>
        rw [hrest] at h
        dsimp only at h
        by_cases hgt : m.extract_date_sk > r.extract_date_sk
        · rw [if_pos hgt] at h; cases h
        · rw [if_neg hgt] at h; cases h
    · rw [if_neg hr] at h
      intro x hx
      rcases List.mem_cons.mp hx with rfl | hx2
      · exact hr
      · exact ih h x hx2

/-- The latest row has the maximal date key among the key's rows. -/
theorem latestAuthorRow_max {aid : Int} : ∀ {s : List AuthorRow} {L : AuthorRow},
    latestAuthorRow aid s = some L →
    ∀ r ∈ s, r.authorID = aid → r.extract_date_sk ≤ L.extract_date_sk := by
  intro s
  induction s with
  | nil => intro L hL r hr; cases hr
  | cons x xs ih =>
    intro L hL
    simp only [latestAuthorRow] at hL
    by_cases hx : x.authorID = aid
    · rw [if_pos hx] at hL
      cases hrest : latestAuthorRow aid xs with
      | none =>
        rw [hrest] at hL
        dsimp only at hL
        simp only [Option.some.injEq] at hL
        intro r hr hra
        rcases List.mem_cons.mp hr with rfl | hr2
        · rw [← hL]
        · exact absurd hra (latestAuthorRow_none hrest r hr2)
      | some m =>
        rw [hrest] at hL
        dsimp only at hL
        intro r hr hra
        by_cases hgt : m.extract_date_sk > x.extract_date_sk
        · rw [if_pos hgt] at hL
          simp only [Option.some.injEq] at hL
          rcases List.mem_cons.mp hr with rfl | hr2
          · rw [← hL]; exact le_of_lt hgt
          · exact hL ▸ ih hrest r hr2 hra
        · rw [if_neg hgt] at hL
          simp only [Option.some.injEq] at hL
          rcases List.mem_cons.mp hr with rfl | hr2
          · rw [← hL]
          · calc r.extract_date_sk ≤ m.extract_date_sk := ih hrest r hr2 hra
              _ ≤ L.extract_date_sk := hL ▸ le_of_not_lt hgt
    · rw [if_neg hx] at hL
      intro r hr hra
      rcases List.mem_cons.mp hr with rfl | hr2
      · exact absurd hra hx
      · exact ih hL r hr2 hra

/-- Appending a strictly fresher row for the key makes it the latest. -/
theorem latestAuthorRow_append_fresh {aid : Int} {s : List AuthorRow}
    (nm av : String) (n : Int)
    (hall : ∀ r ∈ s, r.authorID = aid → r.extract_date_sk < n) :
    latestAuthorRow aid (s ++ [⟨aid, nm, av, n⟩]) = some ⟨aid, nm, av, n⟩ := by
  induction s with
  | nil => simp [latestAuthorRow]
  | cons r rs ih =>
    have ihr := ih (fun x hx => hall x (List.mem_cons_of_mem r hx))
    simp only [List.cons_append, latestAuthorRow, List.append_eq, ihr]
    by_cases hr : r.authorID = aid
    · rw [if_pos hr]
      rw [if_pos (hall r (List.mem_cons_self r rs) hr)]
    · rw [if_neg hr]

/-- Mapping an id- and date-key-preserving update commutes with the latest
selection. -/
theorem latestAuthorRow_map {aid : Int} (f : AuthorRow → AuthorRow)
    (hid : ∀ r, (f r).authorID = r.authorID)
    (hsk : ∀ r, (f r).extract_date_sk = r.extract_date_sk) (s : List AuthorRow) :
    latestAuthorRow aid (s.map f) = (latestAuthorRow aid s).map f := by
  induction s with
  | nil => rfl
  | cons r rs ih =>
    simp only [List.map_cons, latestAuthorRow, ih, hid]
    by_cases hr : r.authorID = aid
    · rw [if_pos hr, if_pos hr]
      cases hrest : latestAuthorRow aid rs with
      | none => rfl
      | some m =>
        simp only [Option.map_some]
        by_cases hgt : m.extract_date_sk > r.extract_date_sk <;> simp [hgt, hsk]
    · rw [if_neg hr, if_neg hr]

/-- Re-upserting a candidate right after its fresh version row was
appended reports `NO_CHANGE` and leaves the table alone. -/
theorem upsert_author_scd2_after_fresh (today : CalDate)
    (dateDim : List DateDimRow) (a : AuthorData) (s : List AuthorRow)
    (rt : DateDimRow)
    (hrt : dateDim.find? (fun r => decide (r.full_date = today)) = some rt)
    (hcons : lookup_full_date dateDim rt.date_sk = some today)
    (hstrict : ∀ r ∈ s, r.authorID = a.authorID →
      r.extract_date_sk < rt.date_sk) :
    TikTokETLProcessor.upsert_author_scd2 today dateDim a
      (s ++ [⟨a.authorID, a.Name, a.avatar, rt.date_sk⟩]) =
      (s ++ [⟨a.authorID, a.Name, a.avatar, rt.date_sk⟩], "NO_CHANGE") := by
  have hlat := @latestAuthorRow_append_fresh a.authorID s
    a.Name a.avatar rt.date_sk hstrict
  simp only [TikTokETLProcessor.upsert_author_scd2, hlat]
  rw [show lookup_full_date dateDim
    ((⟨a.authorID, a.Name, a.avatar, rt.date_sk⟩ : AuthorRow).extract_date_sk) =
    some today from hcons]
  dsimp only
  rw [if_pos rfl]
  rw [if_neg (by simp)]

/-- Idempotence of the SCD2 author upsert: when today's date resolves, the
calendar is consistent on today's key, and every stored row of the key is
dated no later than today's key, running the same candidate a second time
against the state produced by the first run reports `NO_CHANGE` and
changes nothing. -/
theorem upsert_author_scd2_idempotent (today : CalDate)
    (dateDim : List DateDimRow) (a : AuthorData) (s : List AuthorRow)
    (rt : DateDimRow)
    (hrt : dateDim.find? (fun r => decide (r.full_date = today)) = some rt)
    (hcons : lookup_full_date dateDim rt.date_sk = some today)
    (hmax : ∀ r ∈ s, r.authorID = a.authorID →
      r.extract_date_sk ≤ rt.date_sk) :
    TikTokETLProcessor.upsert_author_scd2 today dateDim a
      (TikTokETLProcessor.upsert_author_scd2 today dateDim a s).1 =
      ((TikTokETLProcessor.upsert_author_scd2 today dateDim a s).1,
       "NO_CHANGE") := by
  have htsk : TikTokETLProcessor.get_date_sk_for_today today dateDim =
      rt.date_sk := by
    unfold TikTokETLProcessor.get_date_sk_for_today
    rw [hrt]
  cases hlat : latestAuthorRow a.authorID s with
  | none =>
    have hE1 : TikTokETLProcessor.upsert_author_scd2 today dateDim a s =
        (s ++ [⟨a.authorID, a.Name, a.avatar, rt.date_sk⟩], "INSERT") := by
      simp only [TikTokETLProcessor.upsert_author_scd2, hlat, htsk]
    rw [hE1]
    exact upsert_author_scd2_after_fresh today dateDim a s rt hrt hcons
      (fun r hr hra => absurd hra (latestAuthorRow_none hlat r hr))
  | some L =>
    have hLmem := latestAuthorRow_mem hlat
    cases hlk : lookup_full_date dateDim L.extract_date_sk with
    | none =>
      have hLne : L.extract_date_sk ≠ rt.date_sk := by
        intro h
        rw [h, hcons] at hlk
        cases hlk
      have hstrict : ∀ r ∈ s, r.authorID = a.authorID →
          r.extract_date_sk < rt.date_sk := by
        intro r hr hra
        have h1 := latestAuthorRow_max hlat r hr hra
        have h2 := hmax L hLmem.1 hLmem.2
        omega
      have hE1 : TikTokETLProcessor.upsert_author_scd2 today dateDim a s =
          (s ++ [⟨a.authorID, a.Name, a.avatar, rt.date_sk⟩], "INSERT") := by
        simp only [TikTokETLProcessor.upsert_author_scd2, hlat, hlk, htsk]
      rw [hE1]
      exact upsert_author_scd2_after_fresh today dateDim a s rt hrt hcons hstrict
    | some dL =>
      by_cases hd : dL = today
      · by_cases hchg : L.Name ≠ a.Name ∨ L.avatar ≠ a.avatar
        · have hE1 : TikTokETLProcessor.upsert_author_scd2 today dateDim a s =
              (s.map (fun r =>
                if r.authorID = a.authorID ∧
                   r.extract_date_sk = L.extract_date_sk
                then { r with Name := a.Name, avatar := a.avatar } else r),
               "UPDATE") := by
            simp only [TikTokETLProcessor.upsert_author_scd2, hlat, hlk]
            rw [if_pos hd, if_pos hchg]
          rw [hE1]
          have hid : ∀ r : AuthorRow,
              ((fun r =>
                if r.authorID = a.authorID ∧
                   r.extract_date_sk = L.extract_date_sk
                then { r with Name := a.Name, avatar := a.avatar } else r) r).authorID =
              r.authorID := by
            intro r
            by_cases h : r.authorID = a.authorID ∧
              r.extract_date_sk = L.extract_date_sk <;> simp [h]
          have hsk : ∀ r : AuthorRow,
              ((fun r =>
                if r.authorID = a.authorID ∧
                   r.extract_date_sk = L.extract_date_sk
                then { r with Name := a.Name, avatar := a.avatar } else r) r).extract_date_sk =
              r.extract_date_sk := by
            intro r
            by_cases h : r.authorID = a.authorID ∧
              r.extract_date_sk = L.extract_date_sk <;> simp [h]
          have hlat2 : latestAuthorRow a.authorID (s.map (fun r =>
              if r.authorID = a.authorID ∧
                 r.extract_date_sk = L.extract_date_sk
              then { r with Name := a.Name, avatar := a.avatar } else r)) =
              some { L with Name := a.Name, avatar := a.avatar } := by
            rw [latestAuthorRow_map _ hid hsk s, hlat]
            simp [hLmem.2]
          simp only [TikTokETLProcessor.upsert_author_scd2, hlat2]
          rw [show lookup_full_date dateDim
            (({ L with Name := a.Name, avatar := a.avatar } :
              AuthorRow).extract_date_sk) = some dL from hlk]
          dsimp only
          rw [if_pos hd]
          rw [if_neg (by simp)]
        · have hE1 : TikTokETLProcessor.upsert_author_scd2 today dateDim a s =
              (s, "NO_CHANGE") := by
            simp only [TikTokETLProcessor.upsert_author_scd2, hlat, hlk]
            rw [if_pos hd, if_neg hchg]
          rw [hE1]
          exact hE1
      · by_cases hchg : L.Name ≠ a.Name ∨ L.avatar ≠ a.avatar
        · have hLne : L.extract_date_sk ≠ rt.date_sk := by
            intro h
            rw [h, hcons] at hlk
            exact hd (Option.some.inj hlk).symm
          have hstrict : ∀ r ∈ s, r.authorID = a.authorID →
              r.extract_date_sk < rt.date_sk := by
            intro r hr hra
            have h1 := latestAuthorRow_max hlat r hr hra
            have h2 := hmax L hLmem.1 hLmem.2
            omega
          have hE1 : TikTokETLProcessor.upsert_author_scd2 today dateDim a s =
              (s ++ [⟨a.authorID, a.Name, a.avatar, rt.date_sk⟩], "INSERT") := by
            simp only [TikTokETLProcessor.upsert_author_scd2, hlat, hlk, htsk]
            rw [if_neg hd, if_pos hchg]
          rw [hE1]
          exact upsert_author_scd2_after_fresh today dateDim a s rt hrt hcons hstrict
        · have hE1 : TikTokETLProcessor.upsert_author_scd2 today dateDim a s =
              (s, "NO_CHANGE") := by
            simp only [TikTokETLProcessor.upsert_author_scd2, hlat, hlk]
            rw [if_neg hd, if_neg hchg]
          rw [hE1]
          exact hE1

/-- find? over a singleton appended to a list without matches. -/
theorem find?_append_singleton {α : Type} (p : α → Bool) {l : List α} (x : α)
    (h : l.find? p = none) (hx : p x = true) :
    (l ++ [x]).find? p = some x := by
  induction l with
  | nil => simpa using List.find?_cons_of_pos ([] : List α) hx
  | cons y ys ih =>
    cases hpy : p y with
    | true => rw [List.find?_cons_of_pos _ hpy] at h; cases h
    | false =>
      rw [List.find?_cons_of_neg _ (by simp [hpy])] at h
      rw [List.cons_append, List.find?_cons_of_neg _ (by simp [hpy])]
      exact ih h

/-- find? commutes with a map that preserves the predicate. -/
theorem find?_map_pres {α : Type} (f : α → α) (p : α → Bool)
    (hp : ∀ x, p (f x) = p x) (l : List α) :
    (l.map f).find? p = (l.find? p).map f := by
  induction l with
  | nil => rfl
  | cons x xs ih =>
    cases hpx : p x with
    | true =>
      rw [List.map_cons, List.find?_cons_of_pos _ (by rw [hp]; exact hpx),
        List.find?_cons_of_pos _ hpx]
      rfl
    | false =>
      rw [List.map_cons, List.find?_cons_of_neg _ (by simp [hp, hpx]),
        List.find?_cons_of_neg _ (by simp [hpx]), ih]

/-- Idempotence of `TikTokETLProcessor.upsert_interaction`: running the
same candidate a second time against the state left by the first run
reports `NO_CHANGE` and changes nothing (whatever today resolves to). -/
theorem upsert_interaction_etl_idempotent (today : CalDate)
    (dateDim : List DateDimRow) (d : InteractionData) (s : List InteractionRow) :
    TikTokETLProcessor.upsert_interaction today dateDim d
      (TikTokETLProcessor.upsert_interaction today dateDim d s).1 =
      ((TikTokETLProcessor.upsert_interaction today dateDim d s).1,
       "NO_CHANGE") := by
  cases hf : s.find? (fun r => decide (r.videoID = d.videoID)) with
  | none =>
    have hE1 : TikTokETLProcessor.upsert_interaction today dateDim d s =
        (s ++ [⟨d.videoID, d.DiggCount, d.PlayCount, d.ShareCount,
          d.CommentCount, d.CollectCount,
          TikTokETLProcessor.get_date_sk_for_today today dateDim⟩], "INSERT") := by
      simp only [TikTokETLProcessor.upsert_interaction, hf]
    rw [hE1]
    have hf2 : (s ++ [(⟨d.videoID, d.DiggCount, d.PlayCount, d.ShareCount,
        d.CommentCount, d.CollectCount,
        TikTokETLProcessor.get_date_sk_for_today today dateDim⟩ :
        InteractionRow)]).find? (fun r => decide (r.videoID = d.videoID)) =
        some ⟨d.videoID, d.DiggCount, d.PlayCount, d.ShareCount,
          d.CommentCount, d.CollectCount,
          TikTokETLProcessor.get_date_sk_for_today today dateDim⟩ :=
      find?_append_singleton _ _ hf (by simp)
    simp only [TikTokETLProcessor.upsert_interaction, hf2]
    rw [if_pos ⟨rfl, rfl, rfl, rfl, rfl⟩]
    rw [if_neg (by simp)]
  | some ex =>
    have hvex : ex.videoID = d.videoID := by
      have := List.find?_some hf
      simpa using this
    by_cases hceq : countsEqual ex d
    · by_cases hdate : ex.interaction_date_sk ≠
        TikTokETLProcessor.get_date_sk_for_today today dateDim
      · have hE1 : TikTokETLProcessor.upsert_interaction today dateDim d s =
            (s.map (fun r =>
              if r.videoID = d.videoID
              then { r with interaction_date_sk :=
                TikTokETLProcessor.get_date_sk_for_today today dateDim }
              else r), "DATE_UPDATE") := by
          simp only [TikTokETLProcessor.upsert_interaction, hf]
          rw [if_pos hceq, if_pos hdate]
        rw [hE1]
        have hf2 : ((s.map (fun r =>
            if r.videoID = d.videoID
            then { r with interaction_date_sk :=
              TikTokETLProcessor.get_date_sk_for_today today dateDim }
            else r))).find? (fun r => decide (r.videoID = d.videoID)) =
            some { ex with interaction_date_sk :=
              TikTokETLProcessor.get_date_sk_for_today today dateDim } := by
          rw [find?_map_pres _ _ (fun r => by
            by_cases h : r.videoID = d.videoID <;> simp [h]) s, hf]
          simp [hvex]
        simp only [TikTokETLProcessor.upsert_interaction, hf2]
        rw [if_pos (by
          rcases hceq with ⟨h1, h2, h3, h4, h5⟩
          exact ⟨h1, h2, h3, h4, h5⟩)]
        rw [if_neg (by simp)]
      · have hE1 : TikTokETLProcessor.upsert_interaction today dateDim d s =
            (s, "NO_CHANGE") := by
          simp only [TikTokETLProcessor.upsert_interaction, hf]
          rw [if_pos hceq, if_neg hdate]
        rw [hE1]
        exact hE1
    · have hE1 : TikTokETLProcessor.upsert_interaction today dateDim d s =
          (s.map (fun r =>
            if r.videoID = d.videoID
            then { r with DiggCount := d.DiggCount, PlayCount := d.PlayCount,
                          ShareCount := d.ShareCount,
                          CommentCount := d.CommentCount,
                          CollectCount := d.CollectCount,
                          interaction_date_sk :=
                            TikTokETLProcessor.get_date_sk_for_today today dateDim }
            else r), "UPDATE") := by
        simp only [TikTokETLProcessor.upsert_interaction, hf]
        rw [if_neg hceq]
      rw [hE1]
      have hf2 : ((s.map (fun r =>
          if r.videoID = d.videoID
          then { r with DiggCount := d.DiggCount, PlayCount := d.PlayCount,
                        ShareCount := d.ShareCount,
                        CommentCount := d.CommentCount,
                        CollectCount := d.CollectCount,
                        interaction_date_sk :=
                          TikTokETLProcessor.get_date_sk_for_today today dateDim }
          else r))).find? (fun r => decide (r.videoID = d.videoID)) =
          some ({ ex with DiggCount := d.DiggCount, PlayCount := d.PlayCount,
                          ShareCount := d.ShareCount,
                          CommentCount := d.CommentCount,
                          CollectCount := d.CollectCount,
                          interaction_date_sk :=
                            TikTokETLProcessor.get_date_sk_for_today today dateDim }) := by
        rw [find?_map_pres _ _ (fun r => by
          by_cases h : r.videoID = d.videoID <;> simp [h]) s, hf]
        simp [hvex]
      simp only [TikTokETLProcessor.upsert_interaction, hf2]
      rw [if_pos ⟨rfl, rfl, rfl, rfl, rfl⟩]
      rw [if_neg (by simp)]

/-- Second-run behaviour of `UpsertManager.upsert_author` through
`run_author_db`: provided the key was absent (first run INSERTed), or the
stored row already matched, or the stored row carries the run's date key
(so the first run's UPDATE statement actually touched it), the second run
reports `SKIP` and changes nothing. -/
theorem run_author_db_second_skip (aid an av : String) (dsk : Int)
    (s : List AuthorRowDb)
    (hcase : aid ∉ s.map (·.author_id) ∨
      (∃ r0, s.find? (fun r => decide (r.author_id = aid)) = some r0 ∧
        ((r0.author_name = an ∧ r0.avatar = av) ∨ r0.extract_date_sk = dsk))) :
    run_author_db aid an av dsk ((run_author_db aid an av dsk s).1) =
      ((run_author_db aid an av dsk s).1, true, "SKIP") := by
  rcases hcase with hnot | ⟨r0, hf, hvals⟩
  · have hfnone : s.find? (fun r => decide (r.author_id = aid)) = none := by
      rw [List.find?_eq_none]
      intro r hr hp
      exact hnot (List.mem_map.mpr ⟨r, hr, by simpa using hp⟩)
    have hE1 : run_author_db aid an av dsk s =
        (s ++ [⟨aid, an, av, dsk, true⟩], true, "INSERT") := by
      unfold run_author_db UpsertManager.upsert_author
        UpsertManager.upsert_author_attempt
      rw [hfnone]
      simp [hnot]
    rw [hE1]
    have hmem2 : aid ∈ (s ++ [(⟨aid, an, av, dsk, true⟩ : AuthorRowDb)]).map
        (·.author_id) := by simp
    have hf2 : (s ++ [(⟨aid, an, av, dsk, true⟩ : AuthorRowDb)]).find?
        (fun r => decide (r.author_id = aid)) = some ⟨aid, an, av, dsk, true⟩ :=
      find?_append_singleton _ _ hfnone (by simp)
    unfold run_author_db UpsertManager.upsert_author
      UpsertManager.upsert_author_attempt
    rw [hf2]
    simp [hmem2]
  · have hr0 : r0 ∈ s ∧ r0.author_id = aid := by
      refine ⟨List.mem_of_find?_eq_some hf, ?_⟩
      have := List.find?_some hf
      simpa using this
    have hmem : aid ∈ s.map (·.author_id) :=
      List.mem_map.mpr ⟨r0, hr0.1, hr0.2⟩
    by_cases hv : r0.author_name = an ∧ r0.avatar = av
    · have hE1 : run_author_db aid an av dsk s = (s, true, "SKIP") := by
        unfold run_author_db UpsertManager.upsert_author
          UpsertManager.upsert_author_attempt
        rw [hf]
        simp [hmem, hv.1, hv.2]
      rw [hE1]
      exact hE1
    · have hsk : r0.extract_date_sk = dsk := by
        rcases hvals with h | h
        · exact absurd h hv
        · exact h
      have hE1 : run_author_db aid an av dsk s =
          (s.map (fun r =>
            if r.author_id = aid ∧ r.extract_date_sk = dsk
            then { r with author_name := an, avatar := av } else r),
           true, "UPDATE") := by
        unfold run_author_db UpsertManager.upsert_author
          UpsertManager.upsert_author_attempt
        rw [hf]
        rw [if_pos hmem]
        dsimp only [Option.map]
        rw [if_neg (show ¬ (r0.author_name = an ∧ r0.avatar = av) from hv)]
        rfl
      rw [hE1]
      have hids : ((s.map (fun r =>
          if r.author_id = aid ∧ r.extract_date_sk = dsk
          then { r with author_name := an, avatar := av } else r)).map
          (·.author_id)) = s.map (·.author_id) := by
        rw [List.map_map]
        refine List.map_congr_left (fun r _ => ?_)
        by_cases h : r.author_id = aid ∧ r.extract_date_sk = dsk <;>
          simp [Function.comp, h]
      have hf2 : (s.map (fun r =>
          if r.author_id = aid ∧ r.extract_date_sk = dsk
          then { r with author_name := an, avatar := av } else r)).find?
          (fun r => decide (r.author_id = aid)) =
          some ({ r0 with author_name := an, avatar := av }) := by
        rw [find?_map_pres _ _ (fun r => by
          by_cases h : r.author_id = aid ∧ r.extract_date_sk = dsk <;>
            simp [h]) s, hf]
        simp [hr0.2, hsk]
      unfold run_author_db UpsertManager.upsert_author
        UpsertManager.upsert_author_attempt
      rw [hf2]
      simp [hids, hmem]

/-- C3.  The claim says a second run of an unchanged input yields zero
additional INSERT/UPDATE outcomes — every candidate resolves to
skip/no-change.  Counterexample with `UpsertManager.upsert_author`: the
table holds author a1 with name "old" dated 100, the run carries name
"new" with date key 200.  Both the first and the second run report
`UPDATE` (never SKIP) — the statement's `WHERE author_id = %s AND
extract_date_sk = %s` matches no row, so the state never changes and every
re-run keeps reporting UPDATE. -/
theorem C3_counterexample :
    run_author_db "a1" "new" "av" 200 [⟨"a1", "old", "av", 100, true⟩] =
      ([⟨"a1", "old", "av", 100, true⟩], true, "UPDATE") ∧
    run_author_db "a1" "new" "av" 200
      (run_author_db "a1" "new" "av" 200 [⟨"a1", "old", "av", 100, true⟩]).1 =
      ([⟨"a1", "old", "av", 100, true⟩], true, "UPDATE") := by
  refine ⟨by decide, by decide⟩

/-- C3 (amended).  Re-running an unchanged input against the state of the
first run is idempotent for the SCD2 author upsert (when today's date
resolves, the calendar is consistent on today's key and stored date keys
do not exceed it) and unconditionally for the ETL interaction upsert —
every candidate resolves to NO_CHANGE with no state change.  For
`UpsertManager.upsert_author` the second run resolves to SKIP provided the
first run's path was INSERT or SKIP, or the stored differing row carries
the run's date key; otherwise its UPDATE statement matches no row and the
second run reports UPDATE again (see the counterexample). -/
theorem C3_rerun_idempotence :
    (∀ (today : CalDate) (dateDim : List DateDimRow) (a : AuthorData)
       (s : List AuthorRow) (rt : DateDimRow),
       dateDim.find? (fun r => decide (r.full_date = today)) = some rt →
       lookup_full_date dateDim rt.date_sk = some today →
       (∀ r ∈ s, r.authorID = a.authorID → r.extract_date_sk ≤ rt.date_sk) →
       TikTokETLProcessor.upsert_author_scd2 today dateDim a
         (TikTokETLProcessor.upsert_author_scd2 today dateDim a s).1 =
         ((TikTokETLProcessor.upsert_author_scd2 today dateDim a s).1,
          "NO_CHANGE")) ∧
    (∀ (today : CalDate) (dateDim : List DateDimRow) (d : InteractionData)
       (s : List InteractionRow),
       TikTokETLProcessor.upsert_interaction today dateDim d
         (TikTokETLProcessor.upsert_interaction today dateDim d s).1 =
         ((TikTokETLProcessor.upsert_interaction today dateDim d s).1,
          "NO_CHANGE")) ∧
    (∀ (aid an av : String) (dsk : Int) (s : List AuthorRowDb),
       (aid ∉ s.map (·.author_id) ∨
        (∃ r0, s.find? (fun r => decide (r.author_id = aid)) = some r0 ∧
          ((r0.author_name = an ∧ r0.avatar = av) ∨
           r0.extract_date_sk = dsk))) →
       run_author_db aid an av dsk ((run_author_db aid an av dsk s).1) =
         ((run_author_db aid an av dsk s).1, true, "SKIP")) :=
  ⟨upsert_author_scd2_idempotent, upsert_interaction_etl_idempotent,
   run_author_db_second_skip⟩

/-- C3 witness: concrete second runs — the SCD2 author upsert after an
append (NO_CHANGE), the interaction upsert after an update (NO_CHANGE),
and the db author upsert after an insert (SKIP). -/
theorem C3_rerun_idempotence_witness :
    TikTokETLProcessor.upsert_author_scd2 ⟨2025, 10, 12⟩
      [⟨100, ⟨2025, 10, 11⟩⟩, ⟨200, ⟨2025, 10, 12⟩⟩] ⟨1, "new", "av"⟩
      (TikTokETLProcessor.upsert_author_scd2 ⟨2025, 10, 12⟩
        [⟨100, ⟨2025, 10, 11⟩⟩, ⟨200, ⟨2025, 10, 12⟩⟩] ⟨1, "new", "av"⟩
        [⟨1, "old", "av", 100⟩]).1 =
      ((TikTokETLProcessor.upsert_author_scd2 ⟨2025, 10, 12⟩
        [⟨100, ⟨2025, 10, 11⟩⟩, ⟨200, ⟨2025, 10, 12⟩⟩] ⟨1, "new", "av"⟩
        [⟨1, "old", "av", 100⟩]).1, "NO_CHANGE") ∧
    TikTokETLProcessor.upsert_interaction ⟨2025, 10, 12⟩
      [⟨200, ⟨2025, 10, 12⟩⟩] ⟨7, 9, 2, 3, 4, 5⟩
      (TikTokETLProcessor.upsert_interaction ⟨2025, 10, 12⟩
        [⟨200, ⟨2025, 10, 12⟩⟩] ⟨7, 9, 2, 3, 4, 5⟩
        [⟨7, 1, 2, 3, 4, 5, 100⟩]).1 =
      ((TikTokETLProcessor.upsert_interaction ⟨2025, 10, 12⟩
        [⟨200, ⟨2025, 10, 12⟩⟩] ⟨7, 9, 2, 3, 4, 5⟩
        [⟨7, 1, 2, 3, 4, 5, 100⟩]).1, "NO_CHANGE") ∧
    run_author_db "a1" "alice" "av" 200
      ((run_author_db "a1" "alice" "av" 200 []).1) =
      ((run_author_db "a1" "alice" "av" 200 []).1, true, "SKIP") :=
  ⟨C3_rerun_idempotence.1 ⟨2025, 10, 12⟩
    [⟨100, ⟨2025, 10, 11⟩⟩, ⟨200, ⟨2025, 10, 12⟩⟩] ⟨1, "new", "av"⟩
    [⟨1, "old", "av", 100⟩] ⟨200, ⟨2025, 10, 12⟩⟩ (by decide) (by decide)
    (by decide),
   C3_rerun_idempotence.2.1 ⟨2025, 10, 12⟩ [⟨200, ⟨2025, 10, 12⟩⟩]
    ⟨7, 9, 2, 3, 4, 5⟩ [⟨7, 1, 2, 3, 4, 5, 100⟩],
   C3_rerun_idempotence.2.2 "a1" "alice" "av" 200 [] (Or.inl (by decide))⟩

end DTWH
